import Mathlib

/-!
State-change recorder of the EVM monitor (`vm/monitor.go`).

A shallow embedding of `State`, `StateChanges` (with `Save`, `Variable`, `Slot`) and
`Monitor`, followed by theorems about them.

Modelling conventions.

* A Go map `map[K]V` is a partial function `K → Option V`: `none` is an absent key.  Inner maps
  are reference values in Go; a write through an inner map is modelled by storing the updated
  inner map back into the outer one.
* A byte slice `[]byte` is `Option (List Byte)`: `none` is the nil slice.
* `common.Address` is a 20-byte array, `uint256.Int` a 256-bit unsigned integer, a pointer
  `*uint256.Int` / `*State` an `Option`.
* A timeline `[]*State` is the list of the contents of the States it points to.  `Save` stores
  the pointer it is given and writes through it only when the State starts a timeline (the
  account is cleared); the embedding stores the State read through the pointer, cleared or not,
  and hands the contents left in `*newState` back in the result (`SaveResult.newState`).  This
  describes a caller that passes each call a State that no other timeline of the store holds;
  passing again the State a call has just stored is passing `SaveResult.newState`.
* `Pointer.Save` is `Save` with the timelines as the code holds them, slices of pointers into
  the State objects of the program.  `Pointer.Save_view` relates the two: for a State that,
  when it starts a timeline, is held by no timeline, the store `Pointer.Save` leaves, read
  through its pointers, is the store `Save` leaves.  A State object recorded under two keys is
  outside that case; what the code does with it is stated on `Pointer.Save`.
* A method of `*StateChanges` takes the store before the call and gives back the store after it
  next to what it returns.
-/

namespace Vm

/-- One byte. -/
abbrev Byte := Fin 256

/-- The type `common.Address`: an array of 20 bytes. -/
structure Address where
  bytes : List Byte
  size : bytes.length = 20
deriving DecidableEq

/-- The value `common.Address{}`: twenty zero bytes. -/
def Address.zero : Address := ⟨List.replicate 20 0, rfl⟩

/-- The type `uint256.Int`, used by value as a map key. -/
abbrev Uint256 := Fin (2 ^ 256)

/-- Go's `bytes.Compare` on the contents of two slices: lexicographic order, `0` when equal,
`-1` when the first is smaller, `1` when it is larger. -/
def bytesCompareList : List Byte → List Byte → Int
  | [], [] => 0
  | [], _ :: _ => -1
  | _ :: _, [] => 1
  | x :: xs, y :: ys => if x < y then -1 else if y < x then 1 else bytesCompareList xs ys

/-- Go's `bytes.Compare`: a nil slice counts as an empty one. -/
def bytesCompare (a b : Option (List Byte)) : Int :=
  bytesCompareList (a.getD []) (b.getD [])

/-- The struct `State`. -/
structure State where
  /-- the account that triggered the state change -/
  Account : Address
  /-- raw data of the updated state -/
  Value : Option (List Byte)
deriving DecidableEq

/-- The method `State.Eq` on a non-nil receiver `s`; `other` may be nil. -/
def State.Eq (s : State) (other : Option State) : Bool :=
  match other with
  | none => false
  | some o =>
    bytesCompare (some o.Account.bytes) (some s.Account.bytes) == 0 &&
      bytesCompare o.Value s.Value == 0

/-- A Go map. -/
def GoMap (K V : Type) : Type := K → Option V

/-- The map `make(map[K]V)`. -/
def GoMap.empty {K V : Type} : GoMap K V := fun _ => none

/-- The assignment `m[k] = v`. -/
def GoMap.set {K V : Type} [DecidableEq K] (m : GoMap K V) (k : K) (v : V) : GoMap K V :=
  fun k' => if k' = k then some v else m k'

/-- The struct `StateChanges`. -/
structure StateChanges where
  slotIndex : GoMap Address (GoMap Uint256 String)
  changes : GoMap Address (GoMap String (GoMap String (List State)))

/-- The constructor `NewStateChanges`. -/
def NewStateChanges : StateChanges :=
  { slotIndex := GoMap.empty, changes := GoMap.empty }

/-- How a call of `Save` ends: it returns nil, returns an error, or panics. -/
inductive Outcome where
  | ok
  | error (msg : String)
  | panic
deriving DecidableEq

/-- What a call of `Save` leaves behind. -/
structure SaveResult where
  /-- the store after the call -/
  store : StateChanges
  /-- the contents of `*newState` after the call -/
  newState : Option State
  /-- the returned error, or the panic -/
  outcome : Outcome

/-- The method `StateChanges.Save`. -/
def Save (s : StateChanges) (account : Address) (stateVarName : String)
    (slot : Option Uint256) (index : String) (newState : Option State) : SaveResult :=
  match slot with
  | none => { store := s, newState := newState, outcome := .error "slot cannot be nil" }
  | some slotKey =>
    -- lines 42-49: the slot index of the account, created when missing; first binding is kept
    let accountSlotIndex := (s.slotIndex account).getD GoMap.empty
    let accountSlotIndex :=
      match accountSlotIndex slotKey with
      | some _ => accountSlotIndex
      | none => accountSlotIndex.set slotKey stateVarName
    let slotIndex := s.slotIndex.set account accountSlotIndex
    -- lines 51-65: the three levels of `changes`, each created when missing
    let accountChange := (s.changes account).getD GoMap.empty
    let slotChange := (accountChange stateVarName).getD GoMap.empty
    let stateChange := (slotChange index).getD []
    let withTimeline (t : List State) : StateChanges :=
      { slotIndex := slotIndex
        changes := s.changes.set account (accountChange.set stateVarName (slotChange.set index t)) }
    match newState with
    | none =>
      -- `newState.Eq` (line 69) or `newState.Account = ...` (line 75) dereferences nil
      { store := withTimeline stateChange, newState := none, outcome := .panic }
    | some st =>
      let count := stateChange.length
      if count > 0 && st.Eq stateChange[count - 1]? then
        { store := withTimeline stateChange, newState := some st, outcome := .ok }
      else
        let st := if count = 0 then { st with Account := Address.zero } else st
        { store := withTimeline (stateChange ++ [st]), newState := some st, outcome := .ok }

/-- What a lookup gives back: the returned slice (`none` is nil) and the store after the call. -/
structure Lookup where
  states : Option (List State)
  store : StateChanges

/-- The method `StateChanges.Variable`. -/
def Variable (s : StateChanges) (account : Address) (stateVarName : String) (index : String) :
    Lookup :=
  match ((s.changes account).bind (fun m => m stateVarName)).bind (fun m => m index) with
  | none => { states := none, store := s }
  | some states => { states := some states, store := s }

/-- The method `StateChanges.Slot`. -/
def Slot (s : StateChanges) (account : Address) (slot : Option Uint256) (index : String) :
    Lookup :=
  match slot with
  | none => { states := none, store := s }
  | some slotKey =>
    match (s.slotIndex account).bind (fun m => m slotKey) with
    | none => { states := none, store := s }
    | some stateVar => Variable s account stateVar index

/-- The struct `Monitor`. -/
structure Monitor where
  states : StateChanges

/-- The constructor `NewMonitor`. -/
def NewMonitor : Monitor := { states := NewStateChanges }

/-- The method `Monitor.StateChanges`. -/
def Monitor.StateChanges (m : Monitor) : StateChanges := m.states

/-- The name bound to `(account, slot)` in the slot index: `s.slotIndex[account][slot]`. -/
def boundName (s : StateChanges) (account : Address) (slotKey : Uint256) : Option String :=
  (s.slotIndex account).bind (fun m => m slotKey)

/-- The arguments of one call of `Save`. -/
structure SaveCall where
  account : Address
  stateVarName : String
  slot : Option Uint256
  index : String
  newState : Option State

/-- One call of `Save` on a store, keeping the store it leaves. -/
def SaveCall.apply (s : StateChanges) (c : SaveCall) : StateChanges :=
  (Save s c.account c.stateVarName c.slot c.index c.newState).store

/-- A finite sequence of `Save` calls, made one after the other. -/
def runCalls (s : StateChanges) (calls : List SaveCall) : StateChanges :=
  calls.foldl SaveCall.apply s

/-- The timeline `Save` leaves at its own key, from the timeline `old` found there. -/
def savedTimeline (old : List State) (newState : Option State) : List State :=
  match newState with
  | none => old
  | some st =>
    if old.length > 0 && st.Eq old[old.length - 1]? then old
    else old ++ [if old.length = 0 then { st with Account := Address.zero } else st]

/-- No two neighbours of the timeline are equal in the sense of `State.Eq`. -/
def NoRepeat (tl : List State) : Prop :=
  List.Chain' (fun x y => y.Eq (some x) = false) tl

/-! Concrete inputs -/

/-- A store account. -/
def accountX : Address := ⟨List.replicate 20 7, rfl⟩

/-- A triggering account, different from the zero account. -/
def accountA : Address := ⟨List.replicate 20 1, rfl⟩

/-- Another triggering account. -/
def accountB : Address := ⟨List.replicate 20 2, rfl⟩

/-- The store after `Save(X, "balance", 1, "", (A, 0x00))` on the empty store. -/
def storeOne : StateChanges :=
  (Save NewStateChanges accountX "balance" (some 1) "" (some ⟨accountA, some [0x00]⟩)).store

/-- The two calls `Save(X, "balance", 1, "", (A, 0x00))` and
`Save(X, "balance", 1, "", (B, 0x64))`. -/
def callsAB : List SaveCall :=
  [⟨accountX, "balance", some 1, "", some ⟨accountA, some [0x00]⟩⟩,
    ⟨accountX, "balance", some 1, "", some ⟨accountB, some [0x64]⟩⟩]

/-- The timeline `[(zero account, 0x00), (B, 0x64)]`. -/
def timelineAB : List State :=
  [⟨Address.zero, some [0x00]⟩, ⟨accountB, some [0x64]⟩]

/-- The slot index `Save` leaves (lines 42-49): `(account, slot)` keeps the name it has, or
gets `stateVarName`. -/
def savedSlotIndex (slotIndex : GoMap Address (GoMap Uint256 String)) (account : Address)
    (slotKey : Uint256) (stateVarName : String) : GoMap Address (GoMap Uint256 String) :=
  slotIndex.set account
    (match ((slotIndex account).getD GoMap.empty) slotKey with
      | some _ => (slotIndex account).getD GoMap.empty
      | none => ((slotIndex account).getD GoMap.empty).set slotKey stateVarName)

/-- The map `changes` with the timeline `t` at `(account, name, index)`, each level created
when missing (lines 51-65 and 78). -/
def savedChanges (changes : GoMap Address (GoMap String (GoMap String (List State))))
    (account : Address) (stateVarName index : String) (t : List State) :
    GoMap Address (GoMap String (GoMap String (List State))) :=
  changes.set account (((changes account).getD GoMap.empty).set stateVarName
    (((((changes account).getD GoMap.empty) stateVarName).getD GoMap.empty).set index t))

/-- The store after `Save(X, "balance", 2, "", (zero account, 0x00))` on `storeOne`. -/
def storeOneSlotTwo : StateChanges :=
  (Save storeOne accountX "balance" (some 2) "" (some ⟨Address.zero, some [0x00]⟩)).store

/-- The call `Save(X, "balance", 1, "", nil)`. -/
def callNilState : SaveCall := ⟨accountX, "balance", some 1, "", none⟩

/-- The call `m.StateChanges().Save(...)`.  `StateChanges()` returns the pointer held in
`m.states`, so the store the Monitor holds after the call is the store `Save` leaves. -/
def Monitor.saveThroughStateChanges (m : Monitor) (account : Address) (stateVarName : String)
    (slot : Option Uint256) (index : String) (newState : Option State) : Monitor :=
  { states := (Save m.StateChanges account stateVarName slot index newState).store }

/-- The call has a present slot and exactly the key `(a, n, i)`. -/
def SaveCall.records (c : SaveCall) (a : Address) (n i : String) : Prop :=
  c.slot ≠ none ∧ c.account = a ∧ c.stateVarName = n ∧ c.index = i

/-! The store with its pointers.

`Save` above records the contents of the State it is given.  The definitions of `Pointer` keep
what the code keeps: a timeline is a slice of pointers, `Save` appends the pointer it is given
and clears the account through it, so that a State object recorded in two timelines is one
object. -/

namespace Pointer

/-- A non-nil `*State`: the address of a State object. -/
abbrev StatePtr := Nat

/-- The State objects of the program, by address. -/
def Heap : Type := StatePtr → State

/-- The assignment `p.Account = account` through the pointer `p`. -/
def Heap.setAccount (heap : Heap) (p : StatePtr) (account : Address) : Heap :=
  fun q => if q = p then { heap q with Account := account } else heap q

/-- The struct `StateChanges`: the timelines are of type `[]*State`. -/
structure StateChanges where
  slotIndex : GoMap Address (GoMap Uint256 String)
  changes : GoMap Address (GoMap String (GoMap String (List StatePtr)))

/-- The constructor `NewStateChanges`. -/
def NewStateChanges : StateChanges :=
  { slotIndex := GoMap.empty, changes := GoMap.empty }

/-- What a call of `Save` leaves behind: the store, the State objects, the returned error or
the panic. -/
structure SaveResult where
  store : StateChanges
  heap : Heap
  outcome : Outcome

/-- The method `StateChanges.Save`, on pointers. -/
def Save (s : StateChanges) (heap : Heap) (account : Address) (stateVarName : String)
    (slot : Option Uint256) (index : String) (newState : Option StatePtr) : SaveResult :=
  match slot with
  | none => { store := s, heap := heap, outcome := .error "slot cannot be nil" }
  | some slotKey =>
    -- lines 42-49
    let accountSlotIndex := (s.slotIndex account).getD GoMap.empty
    let accountSlotIndex :=
      match accountSlotIndex slotKey with
      | some _ => accountSlotIndex
      | none => accountSlotIndex.set slotKey stateVarName
    let slotIndex := s.slotIndex.set account accountSlotIndex
    -- lines 51-65
    let accountChange := (s.changes account).getD GoMap.empty
    let slotChange := (accountChange stateVarName).getD GoMap.empty
    let stateChange := (slotChange index).getD []
    let withTimeline (t : List StatePtr) : StateChanges :=
      { slotIndex := slotIndex
        changes := s.changes.set account (accountChange.set stateVarName (slotChange.set index t)) }
    match newState with
    | none =>
      { store := withTimeline stateChange, heap := heap, outcome := .panic }
    | some p =>
      -- lines 68-71: `newState.Eq(stateChange[count-1])` reads both States through their pointers
      let count := stateChange.length
      if count > 0 && (heap p).Eq (stateChange[count - 1]?.map heap) then
        { store := withTimeline stateChange, heap := heap, outcome := .ok }
      else
        -- lines 74-76: the write goes to the object `p` points to
        let heap := if count = 0 then heap.setAccount p Address.zero else heap
        -- line 78: the pointer is appended
        { store := withTimeline (stateChange ++ [p]), heap := heap, outcome := .ok }

/-- The method `StateChanges.Variable`, on pointers: the slice found, `none` for nil. -/
def Variable (s : StateChanges) (account : Address) (stateVarName : String) (index : String) :
    Option (List StatePtr) :=
  ((s.changes account).bind (fun m => m stateVarName)).bind (fun m => m index)

/-- The States that the entries of a returned slice point to. -/
def contents (heap : Heap) (states : Option (List StatePtr)) : List State :=
  (states.getD []).map heap

/-- State objects that all hold `(A, 0x00)`; the object at address 0 is `q0`, the one at
address 1 is `p`. -/
def heapA : Heap := fun _ => ⟨accountA, some [0x00]⟩

/-- The call `Save(X, "balance", 1, "", q0)` on the empty store. -/
def afterFirst : SaveResult :=
  Save NewStateChanges heapA accountX "balance" (some 1) "" (some 0)

/-- Then the call `Save(X, "balance", 1, "", p)`. -/
def afterSecond : SaveResult :=
  Save afterFirst.store afterFirst.heap accountX "balance" (some 1) "" (some 1)

/-- Then the call `Save(X, "owner", 2, "", p)`, with the same pointer `p`. -/
def afterThird : SaveResult :=
  Save afterSecond.store afterSecond.heap accountX "owner" (some 2) "" (some 1)

/-- The timeline `Save` leaves at its own key, from the timeline `old` found there (lines
68-71 and 78). -/
def savedPointers (heap : Heap) (old : List StatePtr) (p : StatePtr) : List StatePtr :=
  if old.length > 0 && (heap p).Eq (old[old.length - 1]?.map heap) then old else old ++ [p]

/-- The State objects `Save` leaves (lines 68-76). -/
def savedHeap (heap : Heap) (old : List StatePtr) (p : StatePtr) : Heap :=
  if old.length > 0 && (heap p).Eq (old[old.length - 1]?.map heap) then heap
  else if old.length = 0 then heap.setAccount p Address.zero else heap

/-- The store of contents that a store of pointers stands for: each timeline read through
its pointers. -/
def view (heap : Heap) (s : StateChanges) : Vm.StateChanges :=
  { slotIndex := s.slotIndex
    changes := fun a => (s.changes a).map fun m n => (m n).map fun m' i =>
      (m' i).map (List.map heap) }

end Pointer

/-! Lemmas on maps and lookups -/

theorem GoMap.set_same {K V : Type} [DecidableEq K] (m : GoMap K V) (k : K) (v : V) :
    m.set k v k = some v := by
  simp [GoMap.set]

theorem GoMap.set_other {K V : Type} [DecidableEq K] (m : GoMap K V) (k k' : K) (v : V)
    (h : k' ≠ k) : m.set k v k' = m k' := by
  simp [GoMap.set, h]

theorem GoMap.set_eq_self {K V : Type} [DecidableEq K] (m : GoMap K V) (k : K) (v : V)
    (h : m k = some v) : m.set k v = m := by
  funext k'
  by_cases hk : k' = k
  · subst hk; simp [GoMap.set, h]
  · simp [GoMap.set, hk]

theorem Variable_store (s : StateChanges) (a : Address) (n i : String) :
    (Variable s a n i).store = s := by
  unfold Variable; split <;> rfl

theorem Variable_states (s : StateChanges) (a : Address) (n i : String) :
    (Variable s a n i).states = ((s.changes a).bind (fun m => m n)).bind (fun m => m i) := by
  unfold Variable
  generalize ((s.changes a).bind (fun m => m n)).bind (fun m => m i) = r
  cases r <;> rfl

theorem Slot_store (s : StateChanges) (a : Address) (k : Option Uint256) (i : String) :
    (Slot s a k i).store = s := by
  unfold Slot
  split
  · rfl
  · split
    · rfl
    · exact Variable_store _ _ _ _

theorem Slot_states_some (s : StateChanges) (a : Address) (k : Uint256) (i : String) :
    (Slot s a (some k) i).states =
      match boundName s a k with
      | none => none
      | some n => (Variable s a n i).states := by
  unfold Slot boundName
  simp only []
  generalize (s.slotIndex a).bind (fun m => m k) = r
  cases r <;> rfl

/-- The timelines after a `Save` with a present slot. -/
theorem Save_states (s : StateChanges) (a : Address) (n : String) (k : Uint256) (i : String)
    (ns : Option State) (a' : Address) (n' i' : String) :
    (Variable (Save s a n (some k) i ns).store a' n' i').states =
      if a' = a ∧ n' = n ∧ i' = i then
        some (savedTimeline ((Variable s a n i).states.getD []) ns)
      else (Variable s a' n' i').states := by
  have key : ∀ t : List State,
      (((s.changes.set a (((s.changes a).getD GoMap.empty).set n
          (((((s.changes a).getD GoMap.empty) n).getD GoMap.empty).set i t))) a').bind
            (fun m => m n')).bind (fun m => m i') =
        if a' = a ∧ n' = n ∧ i' = i then some t
        else ((s.changes a').bind (fun m => m n')).bind (fun m => m i') := by
    intro t
    by_cases ha : a' = a
    · subst ha
      by_cases hn : n' = n
      · subst hn
        by_cases hi : i' = i
        · subst hi; simp [GoMap.set]
        · cases h1 : s.changes a' with
          | none => simp [GoMap.set, hi, GoMap.empty]
          | some m1 =>
            cases h2 : m1 n' <;> simp [GoMap.set, hi, GoMap.empty, h2]
      · cases h1 : s.changes a' <;> simp [GoMap.set, hn, GoMap.empty]
    · simp [GoMap.set, ha]
  have old : (Variable s a n i).states.getD [] =
      (((((s.changes a).getD GoMap.empty) n).getD GoMap.empty) i).getD [] := by
    rw [Variable_states]
    cases h1 : s.changes a with
    | none => simp [GoMap.empty]
    | some m1 => cases h2 : m1 n <;> simp [GoMap.empty, h2]
  have store : (Save s a n (some k) i ns).store.changes =
      s.changes.set a (((s.changes a).getD GoMap.empty).set n
        (((((s.changes a).getD GoMap.empty) n).getD GoMap.empty).set i
          (savedTimeline
            ((((((s.changes a).getD GoMap.empty) n).getD GoMap.empty) i).getD []) ns))) := by
    cases ns with
    | none => rfl
    | some st =>
      simp only [Save, savedTimeline]
      split <;> rfl
  rw [old]
  simp only [Variable_states]
  rw [store]
  exact key _

/-- The slot index after a `Save` with a present slot: the first binding is kept. -/
theorem Save_boundName (s : StateChanges) (a : Address) (n : String) (k : Uint256) (i : String)
    (ns : Option State) (a' : Address) (k' : Uint256) :
    boundName (Save s a n (some k) i ns).store a' k' =
      if a' = a ∧ k' = k then some ((boundName s a k).getD n) else boundName s a' k' := by
  have key : ((s.slotIndex.set a
        (match ((s.slotIndex a).getD GoMap.empty) k with
          | some _ => (s.slotIndex a).getD GoMap.empty
          | none => ((s.slotIndex a).getD GoMap.empty).set k n)) a').bind (fun m => m k') =
      if a' = a ∧ k' = k then some (((s.slotIndex a).bind (fun m => m k)).getD n)
      else (s.slotIndex a').bind (fun m => m k') := by
    by_cases ha : a' = a
    · subst ha
      cases h1 : s.slotIndex a' with
      | none =>
        by_cases hk : k' = k <;> simp [GoMap.set, GoMap.empty, hk]
      | some m1 =>
        cases h2 : m1 k with
        | none => by_cases hk : k' = k <;> simp [GoMap.set, h2, hk]
        | some v =>
          by_cases hk : k' = k
          · subst hk; simp [GoMap.set, h2]
          · simp [GoMap.set, h2, hk]
    · simp [GoMap.set, ha]
  unfold boundName
  cases ns with
  | none => simp only [Save]; exact key
  | some st =>
    simp only [Save]
    split <;> exact key

theorem Save_outcome (s : StateChanges) (a : Address) (n : String) (slot : Option Uint256)
    (i : String) (ns : Option State) :
    (Save s a n slot i ns).outcome =
      match slot, ns with
      | none, _ => Outcome.error "slot cannot be nil"
      | some _, none => Outcome.panic
      | some _, some _ => Outcome.ok := by
  cases slot with
  | none => rfl
  | some k =>
    cases ns with
    | none => rfl
    | some st =>
      simp only [Save]
      split <;> rfl

theorem savedTimeline_some (old : List State) (st : State) :
    savedTimeline old (some st) =
      if old = [] then [⟨Address.zero, st.Value⟩]
      else if st.Eq old.getLast? then old
      else old ++ [st] := by
  unfold savedTimeline
  rw [← List.getLast?_eq_getElem?]
  cases old with
  | nil => simp
  | cons x xs => simp

theorem bytesCompareList_eq_zero (xs ys : List Byte) :
    bytesCompareList xs ys = 0 ↔ xs = ys := by
  induction xs generalizing ys with
  | nil => cases ys <;> simp [bytesCompareList]
  | cons x xs ih =>
    cases ys with
    | nil => simp [bytesCompareList]
    | cons y ys =>
      unfold bytesCompareList
      by_cases h1 : x < y
      · have hne : x ≠ y := ne_of_lt h1
        simp [h1, hne]
      · by_cases h2 : y < x
        · have hne : x ≠ y := (ne_of_lt h2).symm
          simp [h1, h2, hne]
        · have heq : x = y := le_antisymm (not_lt.mp h2) (not_lt.mp h1)
          simp [h1, h2, heq, ih]

theorem Address.eq_of_bytes (a b : Address) (h : a.bytes = b.bytes) : a = b := by
  cases a; cases b; simp_all

/-- What `State.Eq` decides: same account, same value bytes (nil counting as empty). -/
theorem State.Eq_some (s o : State) :
    s.Eq (some o) = true ↔ o.Account = s.Account ∧ o.Value.getD [] = s.Value.getD [] := by
  simp only [State.Eq, bytesCompare, Bool.and_eq_true, beq_iff_eq, bytesCompareList_eq_zero,
    Option.getD_some]
  constructor
  · rintro ⟨h1, h2⟩
    exact ⟨Address.eq_of_bytes _ _ h1, h2⟩
  · rintro ⟨h1, h2⟩
    exact ⟨by rw [h1], h2⟩

/-- An invariant of the store kept by every `Save` holds after any sequence of calls. -/
theorem runCalls_induction (P : StateChanges → Prop)
    (step : ∀ s c, P s → P (SaveCall.apply s c)) (calls : List SaveCall) :
    ∀ s, P s → P (runCalls s calls) := by
  induction calls with
  | nil => intro s h; exact h
  | cons c cs ih => intro s h; exact ih _ (step s c h)

/-- The timelines after any one call of `Save`. -/
theorem apply_states (s : StateChanges) (c : SaveCall) (a : Address) (n i : String) :
    (Variable (SaveCall.apply s c) a n i).states =
      if c.slot ≠ none ∧ a = c.account ∧ n = c.stateVarName ∧ i = c.index then
        some (savedTimeline ((Variable s a n i).states.getD []) c.newState)
      else (Variable s a n i).states := by
  unfold SaveCall.apply
  cases hs : c.slot with
  | none => simp [Save]
  | some k =>
    rw [Save_states]
    by_cases h : a = c.account ∧ n = c.stateVarName ∧ i = c.index
    · obtain ⟨h1, h2, h3⟩ := h
      subst h1 h2 h3
      simp
    · rw [if_neg h, if_neg (fun h' => h h'.2)]

theorem savedTimeline_noRepeat (old : List State) (ns : Option State) (h : NoRepeat old) :
    NoRepeat (savedTimeline old ns) := by
  cases ns with
  | none => exact h
  | some st =>
    rw [savedTimeline_some]
    split_ifs with h1 h2
    · exact List.chain'_singleton _
    · exact h
    · refine List.Chain'.append h (List.chain'_singleton _) ?_
      intro x hx y hy
      simp only [List.head?_cons, Option.mem_def, Option.some.injEq] at hy
      subst hy
      rw [Option.mem_def] at hx
      rw [hx] at h2
      simpa using h2

theorem savedTimeline_head (old : List State) (ns : Option State)
    (h : ∀ st, old.head? = some st → st.Account = Address.zero) :
    ∀ st, (savedTimeline old ns).head? = some st → st.Account = Address.zero := by
  cases ns with
  | none => exact h
  | some new =>
    rw [savedTimeline_some]
    split_ifs with h1 h2
    · intro st hst
      simp only [List.head?_cons, Option.some.injEq] at hst
      subst hst; rfl
    · exact h
    · intro st hst
      cases old with
      | nil => exact absurd rfl h1
      | cons x xs => exact h st (by simpa using hst)

theorem savedTimeline_extends (old : List State) (ns : Option State) :
    old <+: savedTimeline old ns ∧ (savedTimeline old ns).length ≤ old.length + 1 := by
  cases ns with
  | none => exact ⟨List.prefix_refl _, Nat.le_succ _⟩
  | some new =>
    rw [savedTimeline_some]
    split_ifs with h1 h2
    · subst h1; exact ⟨List.nil_prefix, by simp⟩
    · exact ⟨List.prefix_refl _, Nat.le_succ _⟩
    · exact ⟨List.prefix_append _ _, by simp⟩

/-- The contents `Save` leaves in `*newState`: the account is cleared when the State starts a
timeline. -/
theorem Save_newState (s : StateChanges) (a : Address) (n : String) (k : Uint256) (i : String)
    (st : State) :
    (Save s a n (some k) i (some st)).newState =
      some (if (Variable s a n i).states.getD [] = [] then ⟨Address.zero, st.Value⟩ else st) := by
  have old : (Variable s a n i).states.getD [] =
      (((((s.changes a).getD GoMap.empty) n).getD GoMap.empty) i).getD [] := by
    rw [Variable_states]
    cases h1 : s.changes a with
    | none => simp [GoMap.empty]
    | some m1 => cases h2 : m1 n <;> simp [GoMap.empty, h2]
  rw [old]
  simp only [Save]
  generalize (((((s.changes a).getD GoMap.empty) n).getD GoMap.empty) i).getD [] = tl
  cases tl with
  | nil => simp
  | cons x xs =>
    split
    · simp
    · simp

theorem apply_boundName (s : StateChanges) (c : SaveCall) (a : Address) (k : Uint256)
    (n : String) (h : boundName s a k = some n) : boundName (SaveCall.apply s c) a k = some n := by
  unfold SaveCall.apply
  cases hs : c.slot with
  | none => simpa [Save] using h
  | some k' =>
    rw [Save_boundName]
    split_ifs with h1
    · obtain ⟨h2, h3⟩ := h1
      subst h2 h3
      rw [h]; rfl
    · exact h

theorem runCalls_boundName (s : StateChanges) (calls : List SaveCall) (a : Address) (k : Uint256)
    (n : String) (h : boundName s a k = some n) : boundName (runCalls s calls) a k = some n :=
  runCalls_induction (fun s' => boundName s' a k = some n)
    (fun s' c h' => apply_boundName s' c a k n h') calls s h

theorem apply_extends (s : StateChanges) (c : SaveCall) (a : Address) (n i : String) :
    (Variable s a n i).states.getD [] <+: (Variable (SaveCall.apply s c) a n i).states.getD [] ∧
      ((Variable (SaveCall.apply s c) a n i).states.getD []).length ≤
        ((Variable s a n i).states.getD []).length + 1 := by
  rw [apply_states]
  split_ifs
  · exact savedTimeline_extends _ _
  · exact ⟨List.prefix_refl _, Nat.le_succ _⟩

theorem runCalls_extends (s : StateChanges) (calls : List SaveCall) (a : Address) (n i : String) :
    (Variable s a n i).states.getD [] <+: (Variable (runCalls s calls) a n i).states.getD [] :=
  runCalls_induction
    (fun s' => (Variable s a n i).states.getD [] <+: (Variable s' a n i).states.getD [])
    (fun s' c h' => h'.trans (apply_extends s' c a n i).1) calls s (List.prefix_refl _)

theorem Variable_getD (s : StateChanges) (a : Address) (n i : String) :
    (Variable s a n i).states.getD [] =
      (((((s.changes a).getD GoMap.empty) n).getD GoMap.empty) i).getD [] := by
  rw [Variable_states]
  cases h1 : s.changes a with
  | none => simp [GoMap.empty]
  | some m1 => cases h2 : m1 n <;> simp [GoMap.empty, h2]

/-- The whole store after a `Save` with a present slot. -/
theorem Save_store (s : StateChanges) (a : Address) (n : String) (k : Uint256) (i : String)
    (ns : Option State) :
    (Save s a n (some k) i ns).store =
      { slotIndex := savedSlotIndex s.slotIndex a k n
        changes := savedChanges s.changes a n i
          (savedTimeline ((Variable s a n i).states.getD []) ns) } := by
  rw [Variable_getD]
  cases ns with
  | none => rfl
  | some st =>
    simp only [Save, savedTimeline]
    split <;> rfl

theorem savedSlotIndex_twice (si : GoMap Address (GoMap Uint256 String)) (a : Address)
    (k : Uint256) (n n' : String) :
    savedSlotIndex (savedSlotIndex si a k n) a k n' = savedSlotIndex si a k n := by
  funext a'
  by_cases ha : a' = a
  · subst ha
    cases h1 : ((si a').getD GoMap.empty) k with
    | none => simp [savedSlotIndex, GoMap.set, h1]
    | some v => simp [savedSlotIndex, GoMap.set, h1]
  · simp [savedSlotIndex, GoMap.set, ha]

theorem savedSlotIndex_bound (s : StateChanges) (a : Address) (k : Uint256) (n m : String)
    (h : boundName s a k = some m) : savedSlotIndex s.slotIndex a k n = s.slotIndex := by
  unfold boundName at h
  funext a'
  by_cases ha : a' = a
  · subst ha
    cases h1 : s.slotIndex a' with
    | none => simp [h1] at h
    | some m1 =>
      have h2 : m1 k = some m := by simpa [h1] using h
      simp [savedSlotIndex, GoMap.set, h1, h2]
  · simp [savedSlotIndex, GoMap.set, ha]

theorem GoMap.set_set {K V : Type} [DecidableEq K] (m : GoMap K V) (k : K) (v v' : V) :
    (m.set k v).set k v' = m.set k v' := by
  funext k'
  by_cases hk : k' = k <;> simp [GoMap.set, hk]

theorem savedChanges_twice (c : GoMap Address (GoMap String (GoMap String (List State))))
    (a : Address) (n i : String) (t t' : List State) :
    savedChanges (savedChanges c a n i t) a n i t' = savedChanges c a n i t' := by
  simp only [savedChanges, GoMap.set_same, Option.getD_some, GoMap.set_set]

theorem savedChanges_present (s : StateChanges) (a : Address) (n i : String) (t : List State)
    (h : (Variable s a n i).states = some t) : savedChanges s.changes a n i t = s.changes := by
  rw [Variable_states] at h
  cases h1 : s.changes a with
  | none => simp [h1] at h
  | some m1 =>
    cases h2 : m1 n with
    | none => simp [h1, h2] at h
    | some m2 =>
      have h3 : m2 i = some t := by simpa [h1, h2] using h
      simp only [savedChanges, h1, Option.getD_some, h2]
      rw [GoMap.set_eq_self m2 i t h3, GoMap.set_eq_self m1 n m2 h2,
        GoMap.set_eq_self s.changes a m1 h1]

theorem Variable_savedChanges (si : GoMap Address (GoMap Uint256 String))
    (c : GoMap Address (GoMap String (GoMap String (List State))))
    (a : Address) (n i : String) (t : List State) :
    (Variable { slotIndex := si, changes := savedChanges c a n i t } a n i).states = some t := by
  simp [Variable_states, savedChanges, GoMap.set]

theorem Variable_empty (a : Address) (n i : String) :
    (Variable NewStateChanges a n i).states = none := by
  simp [Variable_states, NewStateChanges, GoMap.empty]

theorem boundName_empty (a : Address) (k : Uint256) : boundName NewStateChanges a k = none := by
  simp [boundName, NewStateChanges, GoMap.empty]

theorem Variable_getD_ne_nil (s : StateChanges) (a : Address) (n i : String)
    (h : (Variable s a n i).states.getD [] ≠ []) :
    (Variable s a n i).states = some ((Variable s a n i).states.getD []) := by
  cases h1 : (Variable s a n i).states with
  | none => rw [h1] at h; exact absurd rfl h
  | some tl => rfl

theorem savedTimeline_skip (old : List State) (st : State) (h1 : old ≠ [])
    (h2 : st.Eq old.getLast? = true) : savedTimeline old (some st) = old := by
  rw [savedTimeline_some, if_neg h1, if_pos h2]

theorem savedTimeline_gain (old : List State) (st : State)
    (h : old = [] ∨ st.Eq old.getLast? = false) :
    savedTimeline old (some st) =
      old ++ [if old = [] then ⟨Address.zero, st.Value⟩ else st] := by
  rw [savedTimeline_some]
  by_cases h1 : old = []
  · subst h1; rfl
  · have h2 : st.Eq old.getLast? = false := h.resolve_left h1
    simp [h1, h2]

theorem savedTimeline_ne_nil (old : List State) (st : State) :
    savedTimeline old (some st) ≠ [] := by
  rw [savedTimeline_some]
  split_ifs with h1 h2
  · simp
  · exact h1
  · simp

/-- A timeline is found after a sequence of calls exactly when it was found before or one of
the calls has a present slot and its key. -/
theorem runCalls_found (calls : List SaveCall) (a : Address) (n i : String) :
    ∀ s, (Variable (runCalls s calls) a n i).states ≠ none ↔
      ((Variable s a n i).states ≠ none ∨ ∃ c ∈ calls, c.records a n i) := by
  induction calls with
  | nil => intro s; simp [runCalls]
  | cons c cs ih =>
    intro s
    have step : (Variable (SaveCall.apply s c) a n i).states ≠ none ↔
        ((Variable s a n i).states ≠ none ∨ c.records a n i) := by
      rw [apply_states]
      unfold SaveCall.records
      by_cases h : c.slot ≠ none ∧ a = c.account ∧ n = c.stateVarName ∧ i = c.index
      · rw [if_pos h]
        simp [h.1, h.2.1, h.2.2.1, h.2.2.2]
      · rw [if_neg h]
        constructor
        · intro h'; exact Or.inl h'
        · rintro (h' | ⟨h1, h2, h3, h4⟩)
          · exact h'
          · exact absurd ⟨h1, h2.symm, h3.symm, h4.symm⟩ h
    change (Variable (runCalls (SaveCall.apply s c) cs) a n i).states ≠ none ↔ _
    rw [ih, step]
    simp only [List.mem_cons, exists_eq_or_imp, or_assoc]

/-- When no call panics, present timelines stay non-empty. -/
theorem runCalls_nonempty (calls : List SaveCall)
    (hret : ∀ c ∈ calls, c.slot = none ∨ c.newState ≠ none) :
    ∀ s, (∀ a n i tl, (Variable s a n i).states = some tl → tl ≠ []) →
      ∀ a n i tl, (Variable (runCalls s calls) a n i).states = some tl → tl ≠ [] := by
  induction calls with
  | nil => intro s h; exact h
  | cons c cs ih =>
    intro s h
    refine ih (fun c' hc' => hret c' (List.mem_cons_of_mem _ hc')) (SaveCall.apply s c) ?_
    intro a n i tl
    rw [apply_states]
    split_ifs with hkey
    · intro htl
      rcases hret c (List.mem_cons_self _ _) with h0 | h0
      · exact absurd h0 hkey.1
      · cases hns : c.newState with
        | none => exact absurd hns h0
        | some st =>
          rw [hns] at htl
          simp only [Option.some.injEq] at htl
          rw [← htl]
          exact savedTimeline_ne_nil _ _
    · exact h a n i tl

/-- Calls for other `(account, slot)` pairs leave the pair as it is in the slot index. -/
theorem runCalls_boundName_other (calls : List SaveCall) (a : Address) (k : Uint256)
    (h : ∀ c ∈ calls, ¬ (c.account = a ∧ c.slot = some k)) :
    ∀ s, boundName (runCalls s calls) a k = boundName s a k := by
  induction calls with
  | nil => intro s; rfl
  | cons c cs ih =>
    intro s
    change boundName (runCalls (SaveCall.apply s c) cs) a k = _
    rw [ih (fun c' hc' => h c' (List.mem_cons_of_mem _ hc'))]
    unfold SaveCall.apply
    cases hs : c.slot with
    | none => rfl
    | some k' =>
      rw [Save_boundName, if_neg]
      rintro ⟨h1, h2⟩
      exact h c (List.mem_cons_self _ _) ⟨h1.symm, by rw [hs, h2]⟩

/-- A `Save` on a store that a `Save` with the same key and slot has left. -/
theorem Save_store_again (si : GoMap Address (GoMap Uint256 String))
    (c : GoMap Address (GoMap String (GoMap String (List State))))
    (a : Address) (n : String) (k : Uint256) (i : String) (t : List State) (ns : Option State) :
    (Save { slotIndex := savedSlotIndex si a k n, changes := savedChanges c a n i t }
        a n (some k) i ns).store =
      { slotIndex := savedSlotIndex si a k n
        changes := savedChanges c a n i (savedTimeline t ns) } := by
  rw [Save_store, Variable_savedChanges, savedSlotIndex_twice, savedChanges_twice]
  rfl

theorem savedTimeline_last (old : List State) (st : State) :
    st.Eq (savedTimeline old (some st)).getLast? = true ∨
      (old = [] ∧ savedTimeline old (some st) = [⟨Address.zero, st.Value⟩]) := by
  rw [savedTimeline_some]
  by_cases h1 : old = []
  · right; exact ⟨h1, by rw [if_pos h1]⟩
  · left
    rw [if_neg h1]
    by_cases h2 : st.Eq old.getLast? = true
    · rw [if_pos h2]; exact h2
    · rw [if_neg h2, List.getLast?_concat]
      exact (State.Eq_some _ _).mpr ⟨rfl, rfl⟩

/-- The timeline after two calls with the same State is kept by a third. -/
theorem savedTimeline_stable (old : List State) (st : State) :
    savedTimeline (savedTimeline (savedTimeline old (some st)) (some st)) (some st) =
      savedTimeline (savedTimeline old (some st)) (some st) := by
  have hne : savedTimeline old (some st) ≠ [] := savedTimeline_ne_nil old st
  rcases savedTimeline_last (savedTimeline old (some st)) st with h | ⟨h, _⟩
  · exact savedTimeline_skip _ _ (savedTimeline_ne_nil _ _) h
  · exact absurd h hne

/-- The timeline after one call is kept by a second one when the State has the zero account or
the timeline was non-empty. -/
theorem savedTimeline_stable_once (old : List State) (st : State)
    (h : st.Account = Address.zero ∨ old ≠ []) :
    savedTimeline (savedTimeline old (some st)) (some st) = savedTimeline old (some st) := by
  refine savedTimeline_skip _ _ (savedTimeline_ne_nil _ _) ?_
  rcases savedTimeline_last old st with h1 | ⟨h1, h2⟩
  · exact h1
  · rw [h2]
    rcases h with hz | hne
    · exact (State.Eq_some _ _).mpr ⟨hz.symm, rfl⟩
    · exact absurd h1 hne

theorem runCalls_fixed (c : SaveCall) (s : StateChanges) (h : SaveCall.apply s c = s) (j : Nat) :
    runCalls s (List.replicate j c) = s := by
  induction j with
  | zero => rfl
  | succ j ih =>
    change runCalls (SaveCall.apply s c) (List.replicate j c) = s
    rw [h, ih]

/-! The store of pointers and the store of contents -/

theorem Pointer.view_set (heap : Pointer.Heap)
    (c : GoMap Address (GoMap String (GoMap String (List Pointer.StatePtr))))
    (si : GoMap Address (GoMap Uint256 String)) (a : Address) (n i : String)
    (t : List Pointer.StatePtr) :
    (Pointer.view heap
      { slotIndex := si
        changes := c.set a (((c a).getD GoMap.empty).set n
          (((((c a).getD GoMap.empty) n).getD GoMap.empty).set i t)) }).changes =
      savedChanges (Pointer.view heap { slotIndex := si, changes := c }).changes a n i
        (t.map heap) := by
  funext a'
  by_cases ha : a' = a
  · subst ha
    simp only [Pointer.view, savedChanges, GoMap.set_same, Option.map_some']
    congr 1
    funext n'
    by_cases hn : n' = n
    · subst hn
      simp only [GoMap.set_same, Option.map_some']
      congr 1
      funext i'
      by_cases hi : i' = i
      · subst hi
        simp only [GoMap.set_same, Option.map_some']
      · rw [GoMap.set_other _ _ _ _ hi, GoMap.set_other _ _ _ _ hi]
        cases h1 : c a' with
        | none => simp [GoMap.empty]
        | some m1 => cases h2 : m1 n' <;> simp [GoMap.empty, h2]
    · rw [GoMap.set_other _ _ _ _ hn, GoMap.set_other _ _ _ _ hn]
      cases h1 : c a' <;> simp [GoMap.empty]
  · simp only [Pointer.view, savedChanges]
    rw [GoMap.set_other _ _ _ _ ha, GoMap.set_other _ _ _ _ ha]

theorem Pointer.view_congr (heap heap' : Pointer.Heap) (s : Pointer.StateChanges)
    (h : ∀ a n i tl, Pointer.Variable s a n i = some tl → ∀ q ∈ tl, heap' q = heap q) :
    (Pointer.view heap' s).changes = (Pointer.view heap s).changes := by
  funext a
  simp only [Pointer.view]
  cases h1 : s.changes a with
  | none => rfl
  | some m1 =>
    simp only [Option.map_some']
    congr 1
    funext n
    cases h2 : m1 n with
    | none => rfl
    | some m2 =>
      simp only [Option.map_some']
      congr 1
      funext i
      cases h3 : m2 i with
      | none => rfl
      | some tl =>
        simp only [Option.map_some']
        congr 1
        apply List.map_congr_left
        intro q hq
        exact h a n i tl (by simp [Pointer.Variable, h1, h2, h3]) q hq

theorem Pointer.Variable_view (heap : Pointer.Heap) (s : Pointer.StateChanges) (a : Address)
    (n i : String) :
    (Vm.Variable (Pointer.view heap s) a n i).states =
      (Pointer.Variable s a n i).map (List.map heap) := by
  rw [Variable_states]
  simp only [Pointer.view, Pointer.Variable]
  cases h1 : s.changes a with
  | none => rfl
  | some m1 =>
    cases h2 : m1 n with
    | none => simp [h2]
    | some m2 => cases h3 : m2 i <;> simp [h2, h3]

theorem Pointer.lookup_getD (s : Pointer.StateChanges) (a : Address) (n i : String) :
    (Pointer.Variable s a n i).getD [] =
      (((((s.changes a).getD GoMap.empty) n).getD GoMap.empty) i).getD [] := by
  unfold Pointer.Variable
  cases h1 : s.changes a with
  | none => simp [GoMap.empty]
  | some m1 => cases h2 : m1 n <;> simp [GoMap.empty, h2]

/-- The store and the State objects after a `Save` on pointers with a present slot. -/
theorem Pointer.Save_result (s : Pointer.StateChanges) (heap : Pointer.Heap) (a : Address)
    (n : String) (k : Uint256) (i : String) (p : Pointer.StatePtr) :
    (Pointer.Save s heap a n (some k) i (some p)).store =
      { slotIndex := savedSlotIndex s.slotIndex a k n
        changes := s.changes.set a (((s.changes a).getD GoMap.empty).set n
          (((((s.changes a).getD GoMap.empty) n).getD GoMap.empty).set i
            (Pointer.savedPointers heap ((Pointer.Variable s a n i).getD []) p))) } ∧
    (Pointer.Save s heap a n (some k) i (some p)).heap =
      Pointer.savedHeap heap ((Pointer.Variable s a n i).getD []) p ∧
    (Pointer.Save s heap a n (some k) i (some p)).outcome = Outcome.ok := by
  rw [Pointer.lookup_getD]
  simp only [Pointer.Save, Pointer.savedPointers, Pointer.savedHeap]
  split <;> exact ⟨rfl, rfl, rfl⟩

/-- The pointers `Save` leaves at its key, read through the State objects it leaves, are the
contents that `Vm.Save` leaves. -/
theorem Pointer.savedPointers_map (heap : Pointer.Heap) (old : List Pointer.StatePtr)
    (p : Pointer.StatePtr) :
    (Pointer.savedPointers heap old p).map (Pointer.savedHeap heap old p) =
      savedTimeline (old.map heap) (some (heap p)) := by
  cases old with
  | nil => simp [Pointer.savedPointers, Pointer.savedHeap, savedTimeline, Pointer.Heap.setAccount]
  | cons x xs =>
    have hlast : ((x :: xs)[(x :: xs).length - 1]?).map heap =
        ((x :: xs).map heap)[((x :: xs).map heap).length - 1]? := by
      rw [List.getElem?_map, List.length_map]
    simp only [Pointer.savedPointers, Pointer.savedHeap, savedTimeline, hlast, List.length_map]
    by_cases heq : (decide ((x :: xs).length > 0) &&
        (heap p).Eq (((x :: xs).map heap)[(x :: xs).length - 1]?)) = true
    · rw [if_pos heq, if_pos heq, if_pos heq]
    · rw [if_neg heq, if_neg heq, if_neg heq]
      simp

theorem Pointer.savedHeap_other (heap : Pointer.Heap) (old : List Pointer.StatePtr)
    (p q : Pointer.StatePtr) (h : old = [] → q ≠ p) :
    Pointer.savedHeap heap old p q = heap q := by
  unfold Pointer.savedHeap
  split_ifs with h1 h2
  · rfl
  · have : q ≠ p := h (List.length_eq_zero.mp h2)
    simp [Pointer.Heap.setAccount, this]
  · rfl

theorem Pointer.savedHeap_self (heap : Pointer.Heap) (old : List Pointer.StatePtr)
    (p : Pointer.StatePtr) :
    Pointer.savedHeap heap old p p =
      if old.map heap = [] then ⟨Address.zero, (heap p).Value⟩ else heap p := by
  unfold Pointer.savedHeap
  cases old with
  | nil => simp [Pointer.Heap.setAccount]
  | cons x xs => simp

/-- A `Save` on pointers whose State, when it starts a timeline, is held by no timeline of the
store, is the `Save` on contents: the store it leaves, read through its pointers, is the store
that `Vm.Save` leaves on the contents, with the same outcome and the same State left in
`*newState`. -/
theorem Pointer.Save_view (s : Pointer.StateChanges) (heap : Pointer.Heap) (account : Address)
    (stateVarName : String) (slot : Option Uint256) (index : String) (p : Pointer.StatePtr)
    (hfresh : (Pointer.Variable s account stateVarName index).getD [] = [] →
      ∀ a n i tl, Pointer.Variable s a n i = some tl → p ∉ tl) :
    Pointer.view (Pointer.Save s heap account stateVarName slot index (some p)).heap
        (Pointer.Save s heap account stateVarName slot index (some p)).store =
      (Vm.Save (Pointer.view heap s) account stateVarName slot index (some (heap p))).store ∧
    (Pointer.Save s heap account stateVarName slot index (some p)).outcome =
      (Vm.Save (Pointer.view heap s) account stateVarName slot index (some (heap p))).outcome ∧
    some ((Pointer.Save s heap account stateVarName slot index (some p)).heap p) =
      (Vm.Save (Pointer.view heap s) account stateVarName slot index (some (heap p))).newState := by
  cases slot with
  | none => exact ⟨rfl, rfl, rfl⟩
  | some k =>
    have hold : (Vm.Variable (Pointer.view heap s) account stateVarName index).states.getD [] =
        ((Pointer.Variable s account stateVarName index).getD []).map heap := by
      rw [Pointer.Variable_view]
      cases Pointer.Variable s account stateVarName index <;> rfl
    obtain ⟨hstore, hheap, hout⟩ := Pointer.Save_result s heap account stateVarName k index p
    rw [Save_store, Save_outcome, Save_newState, hold, hstore, hheap, hout]
    refine ⟨?_, rfl, ?_⟩
    · have hc := Pointer.view_set
        (Pointer.savedHeap heap ((Pointer.Variable s account stateVarName index).getD []) p)
        s.changes (savedSlotIndex s.slotIndex account k stateVarName) account stateVarName index
        (Pointer.savedPointers heap ((Pointer.Variable s account stateVarName index).getD []) p)
      have hv := Pointer.view_congr heap
        (Pointer.savedHeap heap ((Pointer.Variable s account stateVarName index).getD []) p) s
        (fun a n i tl htl q hq => Pointer.savedHeap_other heap _ p q
          (fun hnil hqp => hfresh hnil a n i tl htl (hqp ▸ hq)))
      rw [Pointer.savedPointers_map] at hc
      exact congrArg₂ Vm.StateChanges.mk rfl (hc.trans (by rw [← hv]; rfl))
    · rw [Pointer.savedHeap_self]

/-! The claims -/

/-- C1. `Save` with a nil slot returns the error "slot cannot be nil" and leaves the store as it
was: the slot index and the timelines are the same maps as before, every `Variable` and `Slot`
query answers as before the call, and on the empty store every query still finds nothing. -/
theorem Save_nil_slot_rejected (s : StateChanges) (account : Address) (stateVarName index : String)
    (newState : Option State) :
    (Save s account stateVarName none index newState).outcome =
        Outcome.error "slot cannot be nil" ∧
      (Save s account stateVarName none index newState).store = s ∧
      (Save s account stateVarName none index newState).store.slotIndex = s.slotIndex ∧
      (Save s account stateVarName none index newState).store.changes = s.changes ∧
      (∀ a n i, (Variable (Save s account stateVarName none index newState).store a n i).states =
        (Variable s a n i).states) ∧
      (∀ a k i, (Slot (Save s account stateVarName none index newState).store a k i).states =
        (Slot s a k i).states) ∧
      (∀ a n i, (Variable
        (Save NewStateChanges account stateVarName none index newState).store a n i).states =
          none) ∧
      (∀ a k i, (Slot
        (Save NewStateChanges account stateVarName none index newState).store a k i).states =
          none) := by
  refine ⟨rfl, rfl, rfl, rfl, fun _ _ _ => rfl, fun _ _ _ => rfl, fun _ _ _ => rfl, ?_⟩
  intro a k i
  cases k <;> rfl

/-- C2. `Save` returns an error exactly when the slot is nil; with a present slot and a non-nil
new State (whatever the store, the account, the names and the value bytes) it succeeds. -/
theorem Save_error_iff_nil_slot (s : StateChanges) (account : Address)
    (stateVarName index : String) (slot : Option Uint256) (newState : Option State)
    (st : State) :
    ((∃ msg, (Save s account stateVarName slot index newState).outcome = Outcome.error msg) ↔
        slot = none) ∧
      ((Save s account stateVarName slot index (some st)).outcome = Outcome.ok ↔ slot ≠ none) ∧
      ((∃ msg, (Save s account stateVarName slot index (some st)).outcome = Outcome.error msg) ↔
        slot = none) := by
  rw [Save_outcome, Save_outcome]
  cases slot <;> cases newState <;> simp

/-- C3. After a successful `Save(account, name, slot, idx, s)` the timeline at
`(account, name, idx)` is `[(zero account, s.Value)]` when it was absent or empty before, is the
old timeline when that is non-empty and `s.Eq` holds of its last entry, and is the old timeline
with `s` appended otherwise. -/
theorem Save_timeline_spec (s : StateChanges) (account : Address) (stateVarName index : String)
    (slot : Option Uint256) (newState : Option State)
    (hok : (Save s account stateVarName slot index newState).outcome = Outcome.ok) :
    ∃ st, newState = some st ∧
      (Variable (Save s account stateVarName slot index newState).store
          account stateVarName index).states =
        some (if (Variable s account stateVarName index).states.getD [] = [] then
            [⟨Address.zero, st.Value⟩]
          else if st.Eq ((Variable s account stateVarName index).states.getD []).getLast? then
            (Variable s account stateVarName index).states.getD []
          else (Variable s account stateVarName index).states.getD [] ++ [st]) := by
  rw [Save_outcome] at hok
  cases slot with
  | none => simp at hok
  | some k =>
    cases newState with
    | none => simp at hok
    | some st =>
      refine ⟨st, rfl, ?_⟩
      rw [Save_states, if_pos ⟨rfl, rfl, rfl⟩, savedTimeline_some]

/-- Witness of C3: a second observation with another value is appended to a one-entry
timeline. -/
theorem Save_timeline_spec_witness :
    (Save storeOne accountX "balance" (some 1) "" (some ⟨accountB, some [0x64]⟩)).outcome =
        Outcome.ok ∧
      ∃ st, some ⟨accountB, some [0x64]⟩ = some st ∧
        (Variable (Save storeOne accountX "balance" (some 1) "" (some ⟨accountB, some [0x64]⟩)).store
            accountX "balance" "").states =
          some (if (Variable storeOne accountX "balance" "").states.getD [] = [] then
              [⟨Address.zero, st.Value⟩]
            else if st.Eq ((Variable storeOne accountX "balance" "").states.getD []).getLast? then
              (Variable storeOne accountX "balance" "").states.getD []
            else (Variable storeOne accountX "balance" "").states.getD [] ++ [st]) :=
  ⟨by decide, Save_timeline_spec storeOne accountX "balance" "" (some 1)
    (some ⟨accountB, some [0x64]⟩) (by decide)⟩

/-- Dedup on contents, that is, for calls that each pass a State held by no timeline
(`Pointer.Save_view`): in the store of contents reached from the empty store by any finite
sequence of `Save` calls, `State.Eq` is false of every pair of neighbours of a timeline. -/
theorem reachable_no_consecutive_equal (calls : List SaveCall) (account : Address)
    (stateVarName index : String) :
    NoRepeat ((Variable (runCalls NewStateChanges calls) account stateVarName index).states.getD
        []) ∧
      List.Chain' (fun x y => ¬ (x.Account = y.Account ∧ x.Value.getD [] = y.Value.getD []))
        ((Variable (runCalls NewStateChanges calls) account stateVarName index).states.getD
          []) := by
  have inv : ∀ a n i, NoRepeat ((Variable (runCalls NewStateChanges calls) a n i).states.getD
      []) := by
    refine runCalls_induction (fun s => ∀ a n i, NoRepeat ((Variable s a n i).states.getD []))
      ?_ calls NewStateChanges ?_
    · intro s c h a n i
      rw [apply_states]
      split_ifs
      · exact savedTimeline_noRepeat _ _ (h a n i)
      · exact h a n i
    · intro a n i
      exact List.chain'_nil
  refine ⟨inv _ _ _, (inv account stateVarName index).imp ?_⟩
  intro x y hxy hsame
  have : y.Eq (some x) = true := (State.Eq_some y x).mpr hsame
  rw [hxy] at this
  exact Bool.noConfusion this

/-- C5. Baseline normalization invariant: in the store reached from the empty store by any
finite sequence of `Save` calls, a non-empty timeline returned by `Variable` starts with a State
whose account is the zero account. -/
theorem reachable_first_entry_zero_account (calls : List SaveCall) (account : Address)
    (stateVarName index : String) (timeline : List State)
    (hfound : (Variable (runCalls NewStateChanges calls) account stateVarName index).states =
      some timeline)
    (hne : timeline ≠ []) :
    ∃ first rest, timeline = first :: rest ∧ first.Account = Address.zero := by
  have inv : ∀ a n i st, ((Variable (runCalls NewStateChanges calls) a n i).states.getD
      []).head? = some st → st.Account = Address.zero := by
    refine runCalls_induction
      (fun s => ∀ a n i st, ((Variable s a n i).states.getD []).head? = some st →
        st.Account = Address.zero) ?_ calls NewStateChanges ?_
    · intro s c h a n i
      rw [apply_states]
      split_ifs
      · exact savedTimeline_head _ _ (h a n i)
      · exact h a n i
    · intro a n i st hst
      simp [Variable_states, NewStateChanges, GoMap.empty] at hst
  cases timeline with
  | nil => exact absurd rfl hne
  | cons first rest =>
    refine ⟨first, rest, rfl, inv account stateVarName index first ?_⟩
    rw [hfound]
    rfl

/-- Witness of C5: two observations triggered by the non-zero accounts `A` and `B`. -/
theorem reachable_first_entry_zero_account_witness :
    (Variable (runCalls NewStateChanges callsAB) accountX "balance" "").states =
        some timelineAB ∧
      timelineAB ≠ [] ∧
      ∃ first rest, timelineAB = first :: rest ∧ first.Account = Address.zero :=
  ⟨by decide, by decide,
    reachable_first_entry_zero_account callsAB accountX "balance" "" timelineAB
      (by decide) (by decide)⟩

/-- Counterexample to C6: on the empty store, two calls of `Save` with the same arguments and a
State holding `(A, 0x00)`, `A` not the zero account, leave a timeline of two entries. -/
theorem Save_twice_nonzero_account_two_entries :
    (Variable NewStateChanges accountX "balance" "").states = none ∧
      (Variable (Save
          (Save NewStateChanges accountX "balance" (some 1) "" (some ⟨accountA, some [0x00]⟩)).store
          accountX "balance" (some 1) "" (some ⟨accountA, some [0x00]⟩)).store
          accountX "balance" "").states =
        some [⟨Address.zero, some [0x00]⟩, ⟨accountA, some [0x00]⟩] ∧
      ((Variable (Save
          (Save NewStateChanges accountX "balance" (some 1) "" (some ⟨accountA, some [0x00]⟩)).store
          accountX "balance" (some 1) "" (some ⟨accountA, some [0x00]⟩)).store
          accountX "balance" "").states.getD []).length ≠ 1 := by
  decide

/-- C6, amended. From a store with no timeline at `(account, name, idx)`, two calls of `Save` in
a row with the same arguments and a State with contents `s` leave the timeline
`[(zero account, s.Value)]`, of length 1, when `s.Account` is the zero account, and
`[(zero account, s.Value), s]`, of length 2, otherwise; when the second call is given the State
as the first call left it (the same State object, its account cleared by the first call), the
timeline has length 1. -/
theorem Save_twice_fresh_key (s : StateChanges) (account : Address) (stateVarName index : String)
    (slotKey : Uint256) (st : State)
    (hnone : (Variable s account stateVarName index).states = none) :
    (Variable (Save (Save s account stateVarName (some slotKey) index (some st)).store
        account stateVarName (some slotKey) index (some st)).store
        account stateVarName index).states =
        some (if st.Account = Address.zero then [⟨Address.zero, st.Value⟩]
          else [⟨Address.zero, st.Value⟩, st]) ∧
      ((Variable (Save (Save s account stateVarName (some slotKey) index (some st)).store
        account stateVarName (some slotKey) index (some st)).store
        account stateVarName index).states.getD []).length =
        (if st.Account = Address.zero then 1 else 2) ∧
      (Variable (Save (Save s account stateVarName (some slotKey) index (some st)).store
        account stateVarName (some slotKey) index
        (Save s account stateVarName (some slotKey) index (some st)).newState).store
        account stateVarName index).states = some [⟨Address.zero, st.Value⟩] := by
  have first : (Variable (Save s account stateVarName (some slotKey) index (some st)).store
      account stateVarName index).states = some [⟨Address.zero, st.Value⟩] := by
    rw [Save_states, if_pos ⟨rfl, rfl, rfl⟩, savedTimeline_some, hnone]
    rfl
  have eqz : (⟨Address.zero, st.Value⟩ : State).Eq (some ⟨Address.zero, st.Value⟩) = true :=
    (State.Eq_some _ _).mpr ⟨rfl, rfl⟩
  have second : (Variable (Save (Save s account stateVarName (some slotKey) index (some st)).store
      account stateVarName (some slotKey) index (some st)).store
      account stateVarName index).states =
      some (if st.Account = Address.zero then [⟨Address.zero, st.Value⟩]
        else [⟨Address.zero, st.Value⟩, st]) := by
    rw [Save_states, if_pos ⟨rfl, rfl, rfl⟩, savedTimeline_some, first]
    by_cases hz : st.Account = Address.zero
    · have : st.Eq (some ⟨Address.zero, st.Value⟩) = true :=
        (State.Eq_some _ _).mpr ⟨hz.symm, rfl⟩
      simp [hz, this]
    · have : st.Eq (some ⟨Address.zero, st.Value⟩) = false := by
        rw [Bool.eq_false_iff]
        intro h
        exact hz ((State.Eq_some _ _).mp h).1.symm
      simp [hz, this]
  refine ⟨second, ?_, ?_⟩
  · rw [second]
    split_ifs <;> rfl
  · rw [Save_newState, hnone, Save_states, if_pos ⟨rfl, rfl, rfl⟩, savedTimeline_some, first]
    simp [eqz]

/-- Witness of C6, amended: the empty store has no timeline; the State `(A, 0x00)`. -/
theorem Save_twice_fresh_key_witness :
    (Variable NewStateChanges accountX "balance" "").states = none ∧
      ((Variable (Save
          (Save NewStateChanges accountX "balance" (some 1) "" (some ⟨accountA, some [0x00]⟩)).store
          accountX "balance" (some 1) "" (some ⟨accountA, some [0x00]⟩)).store
          accountX "balance" "").states.getD []).length =
        (if accountA = Address.zero then 1 else 2) :=
  ⟨by decide, (Save_twice_fresh_key NewStateChanges accountX "balance" "" 1
    ⟨accountA, some [0x00]⟩ (by decide)).2.1⟩

/-- C7. Binding stability: once a `Save` has bound `(account, slot)` to the name `n1`, the
binding is still `n1` after every later sequence of `Save` calls, where `Slot(account, slot, idx)`
is `Variable(account, n1, idx)` for every `idx`; so it is after a second `Save` for the same
`(account, slot)` under another name `n2`.  A `Save` on an unbound `(account, slot)` binds it. -/
theorem binding_stability (s : StateChanges) (account : Address) (n1 index1 : String)
    (slotKey : Uint256) (newState1 : Option State)
    (hbound : boundName (Save s account n1 (some slotKey) index1 newState1).store
      account slotKey = some n1)
    (later : List SaveCall) (n2 index2 : String) (newState2 : Option State) :
    boundName (runCalls (Save s account n1 (some slotKey) index1 newState1).store later)
        account slotKey = some n1 ∧
      (∀ idx, (Slot (runCalls (Save s account n1 (some slotKey) index1 newState1).store later)
          account (some slotKey) idx).states =
        (Variable (runCalls (Save s account n1 (some slotKey) index1 newState1).store later)
          account n1 idx).states) ∧
      boundName (Save (Save s account n1 (some slotKey) index1 newState1).store
          account n2 (some slotKey) index2 newState2).store account slotKey = some n1 ∧
      (∀ idx, (Slot (Save (Save s account n1 (some slotKey) index1 newState1).store
          account n2 (some slotKey) index2 newState2).store account (some slotKey) idx).states =
        (Variable (Save (Save s account n1 (some slotKey) index1 newState1).store
          account n2 (some slotKey) index2 newState2).store account n1 idx).states) ∧
      (∀ s0 n0 i0 ns0, boundName s0 account slotKey = none →
        boundName (Save s0 account n0 (some slotKey) i0 ns0).store account slotKey =
          some n0) := by
  have stays : ∀ calls, boundName
      (runCalls (Save s account n1 (some slotKey) index1 newState1).store calls)
      account slotKey = some n1 := fun calls => runCalls_boundName _ calls _ _ _ hbound
  have two : boundName (Save (Save s account n1 (some slotKey) index1 newState1).store
      account n2 (some slotKey) index2 newState2).store account slotKey = some n1 :=
    stays [⟨account, n2, some slotKey, index2, newState2⟩]
  refine ⟨stays later, ?_, two, ?_, ?_⟩
  · intro idx
    rw [Slot_states_some, stays later]
  · intro idx
    rw [Slot_states_some, two]
  · intro s0 n0 i0 ns0 h0
    rw [Save_boundName, if_pos ⟨rfl, rfl⟩, h0]
    rfl

/-- Witness of C7: on the empty store slot 1 of `X` is bound to "balance" by a first call; a
second call names it "owner". -/
theorem binding_stability_witness :
    boundName (Save NewStateChanges accountX "balance" (some 1) ""
        (some ⟨accountA, some [0x00]⟩)).store accountX 1 = some "balance" ∧
      ∀ idx, (Slot (Save (Save NewStateChanges accountX "balance" (some 1) ""
          (some ⟨accountA, some [0x00]⟩)).store
          accountX "owner" (some 1) "" (some ⟨accountB, some [0x64]⟩)).store
          accountX (some 1) idx).states =
        (Variable (Save (Save NewStateChanges accountX "balance" (some 1) ""
          (some ⟨accountA, some [0x00]⟩)).store
          accountX "owner" (some 1) "" (some ⟨accountB, some [0x64]⟩)).store
          accountX "balance" idx).states :=
  ⟨by decide, (binding_stability NewStateChanges accountX "balance" "" 1
    (some ⟨accountA, some [0x00]⟩) (by decide) [] "owner" ""
    (some ⟨accountB, some [0x64]⟩)).2.2.2.1⟩

/-- C8. On the store left by `Save(X, "balance", 1, "", (A, 0x00))`, which is reachable, the
successful `Save(X, "owner", 1, "", (B, 0x64))` is followed by a `Slot(X, 1, "")` that returns
the timeline of "balance", `[(zero account, 0x00)]`, and not what `Variable(X, "owner", "")`
returns, `[(zero account, 0x64)]`: the change saved with slot 1 is not found by slot 1. -/
theorem Slot_differs_from_Variable_of_second_name :
    storeOne = runCalls NewStateChanges
        [⟨accountX, "balance", some 1, "", some ⟨accountA, some [0x00]⟩⟩] ∧
      (Save storeOne accountX "owner" (some 1) "" (some ⟨accountB, some [0x64]⟩)).outcome =
        Outcome.ok ∧
      (Slot (Save storeOne accountX "owner" (some 1) "" (some ⟨accountB, some [0x64]⟩)).store
        accountX (some 1) "").states = some [⟨Address.zero, some [0x00]⟩] ∧
      (Variable (Save storeOne accountX "owner" (some 1) "" (some ⟨accountB, some [0x64]⟩)).store
        accountX "owner" "").states = some [⟨Address.zero, some [0x64]⟩] ∧
      (Slot (Save storeOne accountX "owner" (some 1) "" (some ⟨accountB, some [0x64]⟩)).store
        accountX (some 1) "").states ≠
      (Variable (Save storeOne accountX "owner" (some 1) "" (some ⟨accountB, some [0x64]⟩)).store
        accountX "owner" "").states :=
  ⟨rfl, by decide, by decide, by decide, by decide⟩

/-- After a `Save(account, varName, slot, idx, v)` with a present slot, whatever the slot was
bound to, `Slot(account, slot, i)` returns `Variable(account, m, i)`, where `m` is the name that
`(account, slot)` was bound to before the call, or `varName` when it was unbound. -/
theorem Save_slot_resolves_bound_name (s : StateChanges) (account : Address)
    (varName index : String) (slotKey : Uint256) (newState : Option State) (i : String) :
    (Slot (Save s account varName (some slotKey) index newState).store
        account (some slotKey) i).states =
      (Variable (Save s account varName (some slotKey) index newState).store
        account ((boundName s account slotKey).getD varName) i).states := by
  rw [Slot_states_some, Save_boundName, if_pos ⟨rfl, rfl⟩]

/-- Append-only history on contents, that is, for calls that each pass a State held by no
timeline (`Pointer.Save_view`): across any call of `Save` the timeline at every key before the
call is a prefix of the timeline after it and its length grows by at most one; across any
sequence of calls the timeline before is a prefix of the timeline after. -/
theorem Save_append_only (s : StateChanges) (account : Address) (stateVarName index : String)
    (slot : Option Uint256) (newState : Option State) (a : Address) (n i : String)
    (calls : List SaveCall) :
    (Variable s a n i).states.getD [] <+:
        (Variable (Save s account stateVarName slot index newState).store a n i).states.getD [] ∧
      ((Variable (Save s account stateVarName slot index newState).store a n i).states.getD
        []).length ≤ ((Variable s a n i).states.getD []).length + 1 ∧
      (Variable s a n i).states.getD [] <+: (Variable (runCalls s calls) a n i).states.getD [] :=
  ⟨(apply_extends s ⟨account, stateVarName, slot, index, newState⟩ a n i).1,
    (apply_extends s ⟨account, stateVarName, slot, index, newState⟩ a n i).2,
    runCalls_extends s calls a n i⟩

/-- C10. `Slot(account, slot, idx)` returns nil when the slot is nil, nil when
`(account, slot)` has no bound name, and otherwise what `Variable(account, n, idx)` returns for
the bound name `n`; the store after `Slot`, and after `Variable`, is the store before. -/
theorem Slot_lookup_spec (s : StateChanges) (account : Address) (slot : Option Uint256)
    (index : String) :
    (Slot s account none index).states = none ∧
      (∀ k, boundName s account k = none → (Slot s account (some k) index).states = none) ∧
      (∀ k n, boundName s account k = some n →
        (Slot s account (some k) index).states = (Variable s account n index).states) ∧
      (Slot s account slot index).store = s ∧
      (∀ n, (Variable s account n index).store = s) := by
  refine ⟨rfl, ?_, ?_, Slot_store _ _ _ _, fun n => Variable_store _ _ _ _⟩
  · intro k h
    rw [Slot_states_some, h]
  · intro k n h
    rw [Slot_states_some, h]

/-- Counterexample to C11: on `storeOne`, where the timeline of `(X, "balance", "")` is
`[(zero account, 0x00)]` and only slot 1 is bound, the successful
`Save(X, "balance", 2, "", (zero account, 0x00))` adds nothing to the timeline, yet binds slot 2:
`Slot(X, 2, "")` finds nothing before the call and the timeline after it. -/
theorem Save_equal_state_binds_new_slot :
    (Save storeOne accountX "balance" (some 2) "" (some ⟨Address.zero, some [0x00]⟩)).outcome =
        Outcome.ok ∧
      (Variable storeOne accountX "balance" "").states = some [⟨Address.zero, some [0x00]⟩] ∧
      (⟨Address.zero, some [0x00]⟩ : State).Eq
        (((Variable storeOne accountX "balance" "").states.getD []).getLast?) = true ∧
      (Variable storeOneSlotTwo accountX "balance" "").states =
        some [⟨Address.zero, some [0x00]⟩] ∧
      (Slot storeOne accountX (some 2) "").states = none ∧
      (Slot storeOneSlotTwo accountX (some 2) "").states =
        some [⟨Address.zero, some [0x00]⟩] ∧
      (Slot storeOneSlotTwo accountX (some 2) "").states ≠
        (Slot storeOne accountX (some 2) "").states ∧
      boundName storeOneSlotTwo accountX 2 ≠ boundName storeOne accountX 2 := by
  decide

/-- C11, amended. A `Save` with a present slot and a non-nil State always leaves
`(account, slot)` bound (to the name it had, or to `name` when it was unbound) and every other
binding as it was.  When the timeline of `(account, name, idx)` is empty or its last entry is
not `Eq` to the new State, the timeline gains exactly one entry.  When the timeline is non-empty
and its last entry is `Eq` to the new State, all timelines are as before, so every `Variable`
query answers as before, and so does every `Slot` query except one for `slot` itself when
`(account, slot)` was unbound; when `(account, slot)` was bound, the whole store is as before. -/
theorem Save_applies_or_keeps_timelines (s : StateChanges) (account : Address)
    (stateVarName index : String) (slotKey : Uint256) (st : State) :
    boundName (Save s account stateVarName (some slotKey) index (some st)).store account slotKey =
        some ((boundName s account slotKey).getD stateVarName) ∧
      (∀ a k, ¬ (a = account ∧ k = slotKey) →
        boundName (Save s account stateVarName (some slotKey) index (some st)).store a k =
          boundName s a k) ∧
      (((Variable s account stateVarName index).states.getD [] = [] ∨
          st.Eq ((Variable s account stateVarName index).states.getD []).getLast? = false) →
        (Variable (Save s account stateVarName (some slotKey) index (some st)).store
            account stateVarName index).states =
          some ((Variable s account stateVarName index).states.getD [] ++
            [if (Variable s account stateVarName index).states.getD [] = [] then
              ⟨Address.zero, st.Value⟩ else st])) ∧
      (((Variable s account stateVarName index).states.getD [] ≠ [] ∧
          st.Eq ((Variable s account stateVarName index).states.getD []).getLast? = true) →
        (Save s account stateVarName (some slotKey) index (some st)).store.changes = s.changes ∧
        (∀ a n i, (Variable (Save s account stateVarName (some slotKey) index (some st)).store
          a n i).states = (Variable s a n i).states) ∧
        (∀ a k i, (¬ (a = account ∧ k = some slotKey) ∨ boundName s account slotKey ≠ none) →
          (Slot (Save s account stateVarName (some slotKey) index (some st)).store a k i).states =
            (Slot s a k i).states) ∧
        (boundName s account slotKey ≠ none →
          (Save s account stateVarName (some slotKey) index (some st)).store = s)) := by
  refine ⟨?_, ?_, ?_, ?_⟩
  · rw [Save_boundName, if_pos ⟨rfl, rfl⟩]
  · intro a k h
    rw [Save_boundName, if_neg h]
  · intro h
    rw [Save_states, if_pos ⟨rfl, rfl, rfl⟩, savedTimeline_gain _ _ h]
  · rintro ⟨h1, h2⟩
    have hsome := Variable_getD_ne_nil s account stateVarName index h1
    have hchanges : (Save s account stateVarName (some slotKey) index (some st)).store.changes =
        s.changes := by
      rw [Save_store, savedTimeline_skip _ _ h1 h2]
      exact savedChanges_present s account stateVarName index _ hsome
    have hvar : ∀ a n i, (Variable (Save s account stateVarName (some slotKey) index
        (some st)).store a n i).states = (Variable s a n i).states := by
      intro a n i
      rw [Variable_states, Variable_states, hchanges]
    refine ⟨hchanges, hvar, ?_, ?_⟩
    · intro a k i h
      cases k with
      | none => rfl
      | some k' =>
        rw [Slot_states_some, Slot_states_some, Save_boundName]
        by_cases hk : a = account ∧ k' = slotKey
        · obtain ⟨ha, hk'⟩ := hk
          subst ha hk'
          have hb : boundName s a k' ≠ none := by
            rcases h with h | h
            · exact absurd ⟨rfl, rfl⟩ h
            · exact h
          rw [if_pos ⟨rfl, rfl⟩]
          cases hbn : boundName s a k' with
          | none => exact absurd hbn hb
          | some m => simp only [Option.getD_some]; exact hvar _ _ _
        · rw [if_neg hk]
          cases boundName s a k' with
          | none => rfl
          | some m => exact hvar _ _ _
    · intro hb
      cases hbn : boundName s account slotKey with
      | none => exact absurd hbn hb
      | some m =>
        rw [Save_store, savedTimeline_skip _ _ h1 h2, savedSlotIndex_bound s _ _ _ m hbn,
          savedChanges_present s account stateVarName index _ hsome]

/-- Witness of C11, amended: on `storeOne` the State `(zero account, 0x00)` is `Eq` to the last
entry and slot 1 is bound, so `Save` leaves the store as it was. -/
theorem Save_applies_or_keeps_timelines_witness :
    ((Variable storeOne accountX "balance" "").states.getD [] ≠ [] ∧
        (⟨Address.zero, some [0x00]⟩ : State).Eq
          ((Variable storeOne accountX "balance" "").states.getD []).getLast? = true) ∧
      boundName storeOne accountX 1 ≠ none ∧
      (Save storeOne accountX "balance" (some 1) "" (some ⟨Address.zero, some [0x00]⟩)).store =
        storeOne :=
  ⟨by decide, by decide,
    ((Save_applies_or_keeps_timelines storeOne accountX "balance" "" 1
      ⟨Address.zero, some [0x00]⟩).2.2.2 (by decide)).2.2.2 (by decide)⟩

/-- C12. End-to-end scenario: for every store account `X` and triggering accounts `A` and `B`,
on the empty store `Save(X, "balance", 1, "", (A, 0x00))` and then
`Save(X, "balance", 1, "", (B, 0x64))` both succeed; afterwards `Variable(X, "balance", "")`
returns `[(zero account, 0x00), (B, 0x64)]` and `Slot(X, 1, "")` returns the same sequence. -/
theorem end_to_end_scenario (X A B : Address) :
    (Save NewStateChanges X "balance" (some 1) "" (some ⟨A, some [0x00]⟩)).outcome =
        Outcome.ok ∧
      (Save (Save NewStateChanges X "balance" (some 1) "" (some ⟨A, some [0x00]⟩)).store
        X "balance" (some 1) "" (some ⟨B, some [0x64]⟩)).outcome = Outcome.ok ∧
      (Variable (Save (Save NewStateChanges X "balance" (some 1) "" (some ⟨A, some [0x00]⟩)).store
        X "balance" (some 1) "" (some ⟨B, some [0x64]⟩)).store X "balance" "").states =
        some [⟨Address.zero, some [0x00]⟩, ⟨B, some [0x64]⟩] ∧
      (Slot (Save (Save NewStateChanges X "balance" (some 1) "" (some ⟨A, some [0x00]⟩)).store
        X "balance" (some 1) "" (some ⟨B, some [0x64]⟩)).store X (some 1) "").states =
        some [⟨Address.zero, some [0x00]⟩, ⟨B, some [0x64]⟩] := by
  have first : (Variable (Save NewStateChanges X "balance" (some 1) ""
      (some ⟨A, some [0x00]⟩)).store X "balance" "").states =
      some [⟨Address.zero, some [0x00]⟩] := by
    rw [Save_states, if_pos ⟨rfl, rfl, rfl⟩, savedTimeline_some, Variable_empty]
    rfl
  have differ : (⟨B, some [0x64]⟩ : State).Eq (some ⟨Address.zero, some [0x00]⟩) = false := by
    rw [Bool.eq_false_iff]
    intro h
    have hv : (some [0x00] : Option (List Byte)).getD [] = (some [0x64]).getD [] :=
      ((State.Eq_some _ _).mp h).2
    exact absurd hv (by decide)
  have second : (Variable (Save (Save NewStateChanges X "balance" (some 1) ""
      (some ⟨A, some [0x00]⟩)).store X "balance" (some 1) ""
      (some ⟨B, some [0x64]⟩)).store X "balance" "").states =
      some [⟨Address.zero, some [0x00]⟩, ⟨B, some [0x64]⟩] := by
    rw [Save_states, if_pos ⟨rfl, rfl, rfl⟩, savedTimeline_some, first]
    simp [differ]
  refine ⟨?_, ?_, second, ?_⟩
  · rw [Save_outcome]
  · rw [Save_outcome]
  · rw [Slot_states_some, Save_boundName, if_pos ⟨rfl, rfl⟩, Save_boundName,
      if_pos ⟨rfl, rfl⟩, boundName_empty]
    exact second

/-- C13. `State.Eq` is structural: `a.Eq(b)` holds exactly when `a` and `b` have the same
account and the same value bytes, a nil value counting as a zero-length one; `Eq` of a nil State
is false; `Eq` is reflexive, symmetric and transitive. -/
theorem State_Eq_structural (a b c : State) (acct : Address) :
    (a.Eq (some b) = true ↔ a.Account = b.Account ∧ a.Value.getD [] = b.Value.getD []) ∧
      (⟨acct, none⟩ : State).Eq (some ⟨acct, some []⟩) = true ∧
      a.Eq none = false ∧
      a.Eq (some a) = true ∧
      a.Eq (some b) = b.Eq (some a) ∧
      (a.Eq (some b) = true → b.Eq (some c) = true → a.Eq (some c) = true) := by
  refine ⟨?_, ?_, rfl, ?_, ?_, ?_⟩
  · rw [State.Eq_some]
    constructor
    · rintro ⟨h1, h2⟩; exact ⟨h1.symm, h2.symm⟩
    · rintro ⟨h1, h2⟩; exact ⟨h1.symm, h2.symm⟩
  · exact (State.Eq_some _ _).mpr ⟨rfl, rfl⟩
  · exact (State.Eq_some _ _).mpr ⟨rfl, rfl⟩
  · rw [Bool.eq_iff_iff, State.Eq_some, State.Eq_some]
    constructor
    · rintro ⟨h1, h2⟩; exact ⟨h1.symm, h2.symm⟩
    · rintro ⟨h1, h2⟩; exact ⟨h1.symm, h2.symm⟩
  · intro h1 h2
    rw [State.Eq_some] at h1 h2 ⊢
    exact ⟨h2.1.trans h1.1, h2.2.trans h1.2⟩

/-- C14. A freshly constructed Monitor owns the empty store: `Variable` and `Slot` on
`NewMonitor().StateChanges()` find nothing; `StateChanges()` hands out the store the Monitor
holds, so a `Save` made through it is seen by a later query made through it. -/
theorem NewMonitor_owns_empty_store (account : Address) (stateVarName index : String)
    (slot : Option Uint256) (slotKey : Uint256) (st : State) (m : Monitor) :
    (Variable NewMonitor.StateChanges account stateVarName index).states = none ∧
      (Slot NewMonitor.StateChanges account slot index).states = none ∧
      NewMonitor.StateChanges = NewStateChanges ∧
      m.StateChanges = m.states ∧
      (m.saveThroughStateChanges account stateVarName slot index (some st)).StateChanges =
        (Save m.StateChanges account stateVarName slot index (some st)).store ∧
      (Variable (NewMonitor.saveThroughStateChanges account stateVarName (some slotKey) index
        (some st)).StateChanges account stateVarName index).states =
        some [⟨Address.zero, st.Value⟩] ∧
      (Slot (NewMonitor.saveThroughStateChanges account stateVarName (some slotKey) index
        (some st)).StateChanges account (some slotKey) index).states =
        some [⟨Address.zero, st.Value⟩] := by
  have seen : (Variable (NewMonitor.saveThroughStateChanges account stateVarName (some slotKey)
      index (some st)).StateChanges account stateVarName index).states =
      some [⟨Address.zero, st.Value⟩] := by
    change (Variable (Save NewStateChanges account stateVarName (some slotKey) index
      (some st)).store account stateVarName index).states = _
    rw [Save_states, if_pos ⟨rfl, rfl, rfl⟩, savedTimeline_some, Variable_empty]
    rfl
  refine ⟨Variable_empty _ _ _, ?_, rfl, rfl, rfl, seen, ?_⟩
  · cases slot with
    | none => rfl
    | some k => rw [Slot_states_some]; rw [show boundName NewMonitor.StateChanges account k = none
        from boundName_empty _ _]
  · rw [Slot_states_some]
    change (match boundName (Save NewStateChanges account stateVarName (some slotKey) index
      (some st)).store account slotKey with
      | none => none
      | some n => (Variable (NewMonitor.saveThroughStateChanges account stateVarName
          (some slotKey) index (some st)).StateChanges account n index).states) = _
    rw [Save_boundName, if_pos ⟨rfl, rfl⟩, boundName_empty]
    exact seen

/-- Key isolation on contents, that is, for a call that passes a State held by no timeline
(`Pointer.Save_view`): a `Save(account, name, slot, idx, s)` leaves `Variable(a, n, i)` as it was
for every `(a, n, i)` other than `(account, name, idx)`, leaves the name bound to `(a, k)` as it
was for every `(a, k)` other than `(account, slot)`, and under another account leaves every
`Variable` and every `Slot` result as it was. -/
theorem Save_key_isolation (s : StateChanges) (account : Address) (stateVarName index : String)
    (slot : Option Uint256) (newState : Option State) (a : Address) (n i : String)
    (k : Uint256) :
    (¬ (a = account ∧ n = stateVarName ∧ i = index) →
        (Variable (Save s account stateVarName slot index newState).store a n i).states =
          (Variable s a n i).states) ∧
      (¬ (a = account ∧ slot = some k) →
        boundName (Save s account stateVarName slot index newState).store a k =
          boundName s a k) ∧
      (a ≠ account →
        (Variable (Save s account stateVarName slot index newState).store a n i).states =
          (Variable s a n i).states ∧
        ∀ slot', (Slot (Save s account stateVarName slot index newState).store a slot' i).states =
          (Slot s a slot' i).states) := by
  cases slot with
  | none =>
    exact ⟨fun _ => rfl, fun _ => rfl, fun _ => ⟨rfl, fun _ => rfl⟩⟩
  | some k0 =>
    have hvar : ∀ n' , a ≠ account →
        (Variable (Save s account stateVarName (some k0) index newState).store a n' i).states =
          (Variable s a n' i).states := by
      intro n' ha
      rw [Save_states, if_neg (fun h => ha h.1)]
    refine ⟨?_, ?_, ?_⟩
    · intro h
      rw [Save_states, if_neg h]
    · intro h
      rw [Save_boundName, if_neg]
      rintro ⟨h1, h2⟩
      exact h ⟨h1, by rw [h2]⟩
    · intro ha
      refine ⟨hvar n ha, ?_⟩
      intro slot'
      cases slot' with
      | none => rfl
      | some k' =>
        rw [Slot_states_some, Slot_states_some, Save_boundName, if_neg (fun h => ha h.1)]
        cases boundName s a k' with
        | none => rfl
        | some m => exact hvar m ha

/-- Counterexample to C16: the call `Save(X, "balance", 1, "", nil)` on the empty store panics
on the nil State after it has created the timeline of `(X, "balance", "")`, which is left
present and empty although the call has a present slot and exactly this key. -/
theorem Save_nil_state_leaves_empty_timeline :
    (Save NewStateChanges accountX "balance" (some 1) "" none).outcome = Outcome.panic ∧
      (Variable (runCalls NewStateChanges [callNilState]) accountX "balance" "").states =
        some [] ∧
      (Variable (runCalls NewStateChanges [callNilState]) accountX "balance" "").states ≠
        none ∧
      ¬ ((Variable (runCalls NewStateChanges [callNilState]) accountX "balance" "").states.getD
        [] ≠ []) ∧
      (callNilState.slot ≠ none ∧ callNilState.account = accountX ∧
        callNilState.stateVarName = "balance" ∧ callNilState.index = "") := by
  decide

/-- C16, amended. In the store reached from the empty store by a finite sequence of `Save`
calls none of which panics (each has a nil slot or a non-nil State), every timeline present is
non-empty; `Variable(a, n, i)` is non-empty exactly when some call of the sequence has a present
slot and the arguments `a`, `n`, `i`, and returns nil otherwise. -/
theorem reachable_timelines_nonempty (calls : List SaveCall)
    (hret : ∀ c ∈ calls, c.slot = none ∨ c.newState ≠ none)
    (a : Address) (n i : String) :
    (∀ tl, (Variable (runCalls NewStateChanges calls) a n i).states = some tl → tl ≠ []) ∧
      ((Variable (runCalls NewStateChanges calls) a n i).states.getD [] ≠ [] ↔
        ∃ c ∈ calls, c.records a n i) ∧
      ((¬ ∃ c ∈ calls, c.records a n i) →
        (Variable (runCalls NewStateChanges calls) a n i).states = none) := by
  have hne := runCalls_nonempty calls hret NewStateChanges
    (fun a n i tl h => by rw [Variable_empty] at h; exact Option.noConfusion h)
  have hfound := runCalls_found calls a n i NewStateChanges
  rw [Variable_empty] at hfound
  simp only [ne_eq, not_true_eq_false, false_or] at hfound
  refine ⟨hne a n i, ?_, ?_⟩
  · rw [← hfound]
    cases hs : (Variable (runCalls NewStateChanges calls) a n i).states with
    | none => simp
    | some tl => simpa using hne a n i tl hs
  · intro h
    by_contra hc
    exact h (hfound.mp hc)

/-- Witness of C16, amended: the two calls of `callsAB` return; the timeline of
`(X, "balance", "")` is present and non-empty. -/
theorem reachable_timelines_nonempty_witness :
    (∀ c ∈ callsAB, c.slot = none ∨ c.newState ≠ none) ∧
      ((Variable (runCalls NewStateChanges callsAB) accountX "balance" "").states.getD [] ≠ [] ↔
        ∃ c ∈ callsAB, c.records accountX "balance" "") :=
  ⟨by decide, (reachable_timelines_nonempty callsAB (by decide) accountX "balance" "").2.1⟩

/-- C17. After a successful `Save(account, name, slot, idx, s)` the timeline of
`(account, name, idx)` is non-empty and its last entry has the value bytes of `s`; the account of
the last entry is `s.Account` when the timeline was non-empty before the call, and the zero
account (the entry being `(zero account, s.Value)`) when it was empty. -/
theorem Save_last_entry (s : StateChanges) (account : Address) (stateVarName index : String)
    (slot : Option Uint256) (newState : Option State)
    (hok : (Save s account stateVarName slot index newState).outcome = Outcome.ok) :
    ∃ st last, newState = some st ∧
      (Variable (Save s account stateVarName slot index newState).store
        account stateVarName index).states.getD [] ≠ [] ∧
      ((Variable (Save s account stateVarName slot index newState).store
        account stateVarName index).states.getD []).getLast? = some last ∧
      last.Value.getD [] = st.Value.getD [] ∧
      ((Variable s account stateVarName index).states.getD [] ≠ [] →
        last.Account = st.Account) ∧
      ((Variable s account stateVarName index).states.getD [] = [] →
        last = ⟨Address.zero, st.Value⟩) := by
  rw [Save_outcome] at hok
  cases slot with
  | none => simp at hok
  | some k =>
    cases newState with
    | none => simp at hok
    | some st =>
      rw [Save_states, if_pos ⟨rfl, rfl, rfl⟩, Option.getD_some]
      by_cases h1 : (Variable s account stateVarName index).states.getD [] = []
      · refine ⟨st, ⟨Address.zero, st.Value⟩, rfl, savedTimeline_ne_nil _ _, ?_, rfl,
          fun h => absurd h1 h, fun _ => rfl⟩
        rw [savedTimeline_some, if_pos h1]
        rfl
      · by_cases h2 : st.Eq ((Variable s account stateVarName index).states.getD []).getLast? =
            true
        · cases hl : ((Variable s account stateVarName index).states.getD []).getLast? with
          | none => rw [hl] at h2; exact absurd h2 (by simp [State.Eq])
          | some last =>
            rw [hl] at h2
            have heq := (State.Eq_some st last).mp h2
            refine ⟨st, last, rfl, savedTimeline_ne_nil _ _, ?_, heq.2, fun _ => heq.1,
              fun h => absurd h h1⟩
            rw [savedTimeline_some, if_neg h1, hl, if_pos h2]
            exact hl
        · refine ⟨st, st, rfl, savedTimeline_ne_nil _ _, ?_, rfl, fun _ => rfl,
            fun h => absurd h h1⟩
          rw [savedTimeline_some, if_neg h1, if_neg h2, List.getLast?_concat]

/-- Witness of C17: the State `(B, 0x64)` recorded on `storeOne`. -/
theorem Save_last_entry_witness :
    (Save storeOne accountX "balance" (some 1) "" (some ⟨accountB, some [0x64]⟩)).outcome =
        Outcome.ok ∧
      ∃ st last, some (⟨accountB, some [0x64]⟩ : State) = some st ∧
        (Variable (Save storeOne accountX "balance" (some 1) ""
          (some ⟨accountB, some [0x64]⟩)).store accountX "balance" "").states.getD [] ≠ [] ∧
        ((Variable (Save storeOne accountX "balance" (some 1) ""
          (some ⟨accountB, some [0x64]⟩)).store accountX "balance" "").states.getD
            []).getLast? = some last ∧
        last.Value.getD [] = st.Value.getD [] ∧
        ((Variable storeOne accountX "balance" "").states.getD [] ≠ [] →
          last.Account = st.Account) ∧
        ((Variable storeOne accountX "balance" "").states.getD [] = [] →
          last = ⟨Address.zero, st.Value⟩) :=
  ⟨by decide, Save_last_entry storeOne accountX "balance" "" (some 1)
    (some ⟨accountB, some [0x64]⟩) (by decide)⟩

/-- C18. Guarded slot/name equivalence: after a `Save(account, varName, slot, idx, v)` with a
present slot, made when `(account, slot)` was unbound or already bound to `varName`,
`Slot(account, slot, i)` is `Variable(account, varName, i)` for every sub-index `i`; so it is
for the first `Save` made for `(account, slot)` after any calls on the empty store. -/
theorem Save_slot_equals_variable_every_index (s : StateChanges) (account : Address)
    (varName index : String) (slotKey : Uint256) (newState : Option State)
    (hguard : boundName s account slotKey = none ∨ boundName s account slotKey = some varName)
    (earlier : List SaveCall) :
    (∀ i, (Slot (Save s account varName (some slotKey) index newState).store
        account (some slotKey) i).states =
      (Variable (Save s account varName (some slotKey) index newState).store
        account varName i).states) ∧
    ((∀ c ∈ earlier, ¬ (c.account = account ∧ c.slot = some slotKey)) →
      ∀ i, (Slot (Save (runCalls NewStateChanges earlier) account varName (some slotKey) index
          newState).store account (some slotKey) i).states =
        (Variable (Save (runCalls NewStateChanges earlier) account varName (some slotKey) index
          newState).store account varName i).states) := by
  have key : ∀ s0 : StateChanges,
      (boundName s0 account slotKey = none ∨ boundName s0 account slotKey = some varName) →
      ∀ i, (Slot (Save s0 account varName (some slotKey) index newState).store
        account (some slotKey) i).states =
      (Variable (Save s0 account varName (some slotKey) index newState).store
        account varName i).states := by
    intro s0 h0 i
    rw [Slot_states_some, Save_boundName, if_pos ⟨rfl, rfl⟩]
    rcases h0 with hg | hg <;> rw [hg] <;> rfl
  refine ⟨key s hguard, ?_⟩
  intro hfirst
  refine key _ (Or.inl ?_)
  rw [runCalls_boundName_other earlier account slotKey hfirst, boundName_empty]

/-- Witness of C18: slot 1 of `X` is bound to "balance" in `storeOne`; the call records under
"balance" at the sub-index "7". -/
theorem Save_slot_equals_variable_every_index_witness :
    (boundName storeOne accountX 1 = none ∨ boundName storeOne accountX 1 = some "balance") ∧
      ∀ i, (Slot (Save storeOne accountX "balance" (some 1) "7"
          (some ⟨accountB, some [0x64]⟩)).store accountX (some 1) i).states =
        (Variable (Save storeOne accountX "balance" (some 1) "7"
          (some ⟨accountB, some [0x64]⟩)).store accountX "balance" i).states :=
  ⟨Or.inr (by decide), (Save_slot_equals_variable_every_index storeOne accountX "balance" "7" 1
    (some ⟨accountB, some [0x64]⟩) (Or.inr (by decide)) []).1⟩

/-- C19. Repetition stabilises after two calls: the same `Save` (present slot, State `s`) made
three times, or any number of times from two on, leaves the store that two calls leave; when
`s.Account` is the zero account or the timeline of `(account, name, idx)` was non-empty, two
calls leave the store that one call leaves. -/
theorem Save_repetition_stable (s : StateChanges) (account : Address)
    (stateVarName index : String) (slotKey : Uint256) (st : State) (j : Nat) :
    (Save (Save (Save s account stateVarName (some slotKey) index (some st)).store
        account stateVarName (some slotKey) index (some st)).store
        account stateVarName (some slotKey) index (some st)).store =
      (Save (Save s account stateVarName (some slotKey) index (some st)).store
        account stateVarName (some slotKey) index (some st)).store ∧
    runCalls s (List.replicate (j + 2) ⟨account, stateVarName, some slotKey, index, some st⟩) =
      runCalls s (List.replicate 2 ⟨account, stateVarName, some slotKey, index, some st⟩) ∧
    ((st.Account = Address.zero ∨ (Variable s account stateVarName index).states.getD [] ≠ []) →
      (Save (Save s account stateVarName (some slotKey) index (some st)).store
        account stateVarName (some slotKey) index (some st)).store =
      (Save s account stateVarName (some slotKey) index (some st)).store) := by
  have three : (Save (Save (Save s account stateVarName (some slotKey) index (some st)).store
        account stateVarName (some slotKey) index (some st)).store
        account stateVarName (some slotKey) index (some st)).store =
      (Save (Save s account stateVarName (some slotKey) index (some st)).store
        account stateVarName (some slotKey) index (some st)).store := by
    rw [Save_store s, Save_store_again, Save_store_again, savedTimeline_stable]
  refine ⟨three, ?_, ?_⟩
  · change runCalls (Save (Save s account stateVarName (some slotKey) index (some st)).store
        account stateVarName (some slotKey) index (some st)).store
        (List.replicate j ⟨account, stateVarName, some slotKey, index, some st⟩) = _
    exact runCalls_fixed ⟨account, stateVarName, some slotKey, index, some st⟩
      (Save (Save s account stateVarName (some slotKey) index (some st)).store
        account stateVarName (some slotKey) index (some st)).store three j
  · intro h
    rw [Save_store s, Save_store_again, savedTimeline_stable_once _ _ h]

/-- Witness of C19: on the empty store the State `(A, 0x00)` has a non-zero account, on
`storeOne` the timeline is non-empty; there a second call changes nothing. -/
theorem Save_repetition_stable_witness :
    (accountA = Address.zero ∨ (Variable storeOne accountX "balance" "").states.getD [] ≠ []) ∧
      (Save (Save storeOne accountX "balance" (some 1) "" (some ⟨accountA, some [0x00]⟩)).store
        accountX "balance" (some 1) "" (some ⟨accountA, some [0x00]⟩)).store =
      (Save storeOne accountX "balance" (some 1) "" (some ⟨accountA, some [0x00]⟩)).store :=
  ⟨Or.inr (by decide), (Save_repetition_stable storeOne accountX "balance" "" 1
    ⟨accountA, some [0x00]⟩ 0).2.2 (Or.inr (by decide))⟩

/-- C4. On the code the dedup invariant fails once a State object is passed to `Save` twice:
on the empty store, `Save(X, "balance", 1, "", q0)`, `Save(X, "balance", 1, "", p)` and
`Save(X, "owner", 2, "", p)`, with `q0` and `p` two States `(A, 0x00)`, all succeed; the third
call clears the account of `p`, which the timeline of `(X, "balance", "")` holds as its second
entry, and leaves that timeline as `[(zero account, 0x00), (zero account, 0x00)]`, two equal
neighbours. -/
theorem shared_state_equal_neighbours :
    Pointer.afterFirst.outcome = Outcome.ok ∧
      Pointer.afterSecond.outcome = Outcome.ok ∧
      Pointer.afterThird.outcome = Outcome.ok ∧
      Pointer.Variable Pointer.afterThird.store accountX "balance" "" = some [0, 1] ∧
      Pointer.contents Pointer.afterThird.heap
          (Pointer.Variable Pointer.afterThird.store accountX "balance" "") =
        [⟨Address.zero, some [0x00]⟩, ⟨Address.zero, some [0x00]⟩] ∧
      (⟨Address.zero, some [0x00]⟩ : State).Eq (some ⟨Address.zero, some [0x00]⟩) = true ∧
      ¬ NoRepeat (Pointer.contents Pointer.afterThird.heap
        (Pointer.Variable Pointer.afterThird.store accountX "balance" "")) := by
  have h : Pointer.contents Pointer.afterThird.heap
      (Pointer.Variable Pointer.afterThird.store accountX "balance" "") =
      [⟨Address.zero, some [0x00]⟩, ⟨Address.zero, some [0x00]⟩] := by decide
  refine ⟨by decide, by decide, by decide, by decide, h, by decide, ?_⟩
  rw [h]
  unfold NoRepeat
  intro hchain
  have hpair := List.chain'_pair.mp hchain
  revert hpair
  decide

/-- C9. On the code a recorded entry is changed once a State object is passed to `Save` for two
keys: after `Save(X, "balance", 1, "", q0)` and `Save(X, "balance", 1, "", p)` the timeline of
`(X, "balance", "")` is `[(zero account, 0x00), (A, 0x00)]`; the call `Save(X, "owner", 2, "", p)`
clears the account of `p` and leaves it as `[(zero account, 0x00), (zero account, 0x00)]`, of
which the timeline before the call is no prefix. -/
theorem shared_state_rewrites_recorded_entry :
    Pointer.contents Pointer.afterSecond.heap
        (Pointer.Variable Pointer.afterSecond.store accountX "balance" "") =
        [⟨Address.zero, some [0x00]⟩, ⟨accountA, some [0x00]⟩] ∧
      (Pointer.Save Pointer.afterSecond.store Pointer.afterSecond.heap
        accountX "owner" (some 2) "" (some 1)).outcome = Outcome.ok ∧
      Pointer.contents
        (Pointer.Save Pointer.afterSecond.store Pointer.afterSecond.heap
          accountX "owner" (some 2) "" (some 1)).heap
        (Pointer.Variable
          (Pointer.Save Pointer.afterSecond.store Pointer.afterSecond.heap
            accountX "owner" (some 2) "" (some 1)).store accountX "balance" "") =
        [⟨Address.zero, some [0x00]⟩, ⟨Address.zero, some [0x00]⟩] ∧
      ¬ (Pointer.contents Pointer.afterSecond.heap
          (Pointer.Variable Pointer.afterSecond.store accountX "balance" "") <+:
        Pointer.contents
          (Pointer.Save Pointer.afterSecond.store Pointer.afterSecond.heap
            accountX "owner" (some 2) "" (some 1)).heap
          (Pointer.Variable
            (Pointer.Save Pointer.afterSecond.store Pointer.afterSecond.heap
              accountX "owner" (some 2) "" (some 1)).store accountX "balance" "")) := by
  decide

/-- C15. On the code a `Save` at one key changes the result of `Variable` at another key once a
State object is passed to `Save` for both: the call `Save(X, "owner", 2, "", p)`, with `p`
already recorded as the second entry of `(X, "balance", "")`, changes what
`Variable(X, "balance", "")` returns from `[(zero account, 0x00), (A, 0x00)]` to
`[(zero account, 0x00), (zero account, 0x00)]`, though `(X, "balance", "")` is not the key
`(X, "owner", "")` of the call. -/
theorem shared_state_changes_other_key :
    ¬ (accountX = accountX ∧ "balance" = "owner" ∧ "" = "") ∧
      Pointer.Variable Pointer.afterSecond.store accountX "balance" "" = some [0, 1] ∧
      Pointer.Variable
        (Pointer.Save Pointer.afterSecond.store Pointer.afterSecond.heap
          accountX "owner" (some 2) "" (some 1)).store accountX "balance" "" = some [0, 1] ∧
      Pointer.afterSecond.heap 1 = ⟨accountA, some [0x00]⟩ ∧
      (Pointer.Save Pointer.afterSecond.store Pointer.afterSecond.heap
        accountX "owner" (some 2) "" (some 1)).heap 1 = ⟨Address.zero, some [0x00]⟩ ∧
      Pointer.contents
        (Pointer.Save Pointer.afterSecond.store Pointer.afterSecond.heap
          accountX "owner" (some 2) "" (some 1)).heap
        (Pointer.Variable
          (Pointer.Save Pointer.afterSecond.store Pointer.afterSecond.heap
            accountX "owner" (some 2) "" (some 1)).store accountX "balance" "") ≠
      Pointer.contents Pointer.afterSecond.heap
        (Pointer.Variable Pointer.afterSecond.store accountX "balance" "") := by
  decide

end Vm
